import Mathlib

/-!
Shallow embedding of the timetable-generation core of the repository
(`src/lib/timetable-generator.ts` and the interactive conflict re-checker of
the page controller), together with proofs of the specification claims.

Modelling conventions:
* JavaScript strings are Lean `String`s; optional string fields that the code
  tests for truthiness are `String` with `""` playing the role of
  `undefined`/empty (the code treats both identically via truthiness), and
  `Partial` update records use `Option String` with explicit JS truthiness.
* JS numbers holding durations/frequencies/counts are `Nat`; `Number(...)`
  parsing of time components is modelled on integral decimal literals, with
  parse failure (`NaN`) making every comparison false, as in JS.
* The completion rate is an exact rational (`ℚ`).
* Fresh entry-identity generation (`Date.now()`/`Math.random()`) is modelled
  by an oracle `Nat → String` supplying the unpredictable suffix of the id.
-/

namespace TTG

/-- JS truthiness of a possibly-absent string (`undefined` and `""` are falsy). -/
def jsTruthy (o : Option String) : Bool :=
  match o with
  | none => false
  | some s => s != ""

/-- JS `a || b` for a possibly-absent string `a` and default `b`. -/
def jsOr (o : Option String) (d : String) : String :=
  match o with
  | none => d
  | some s => if s = "" then d else s

/-- One decimal digit as a character. -/
def digChar (d : Nat) : Char :=
  if d = 0 then '0' else if d = 1 then '1' else if d = 2 then '2'
  else if d = 3 then '3' else if d = 4 then '4' else if d = 5 then '5'
  else if d = 6 then '6' else if d = 7 then '7' else if d = 8 then '8' else '9'

/-- Decimal rendering of a natural number, modelling JS template interpolation
of a nonnegative integer. -/
def natStr (n : Nat) : String :=
  if h : n < 10 then (digChar n).toString
  else natStr (n / 10) ++ (digChar (n % 10)).toString
termination_by n
decreasing_by
  exact Nat.div_lt_self (Nat.lt_of_lt_of_le (by decide) (Nat.le_of_not_lt h)) (by decide)

/-- Does the first list start with the second one? (helper for substring search). -/
def leadsWith : List Char → List Char → Bool
  | _, [] => true
  | [], _ :: _ => false
  | a :: as, b :: bs => a == b && leadsWith as bs

/-- Does the first list contain the second as a contiguous segment? -/
def hasSeg : List Char → List Char → Bool
  | [], n => leadsWith [] n
  | a :: t, n => leadsWith (a :: t) n || hasSeg t n

/-- JS `haystack.includes(needle)`. -/
def jsIncludes (hay sub : String) : Bool :=
  hasSeg hay.data sub.data

/-- `Array.from(new Set(xs))`: deduplicate keeping first occurrences. -/
def jsSetDedup (xs : List String) : List String :=
  xs.foldl (fun acc d => if acc.contains d then acc else acc ++ [d]) []

/-- An apostrophe, as a string (used inside generated message text). -/
def apos : String := (Char.ofNat 39).toString

/-- `timeToMinutes` of `src/lib/timetable-generator.ts`: parse `"HH:MM"` into
minutes since midnight; `none` models a `NaN` result. -/
def timeToMinutes (time : String) : Option Int := do
  let parts := time.splitOn ":"
  let hs ← parts[0]?
  let ms ← parts[1]?
  let h ← hs.toInt?
  let m ← ms.toInt?
  pure (h * 60 + m)

/-- `timesOverlap`: half-open interval overlap on parsed times; any `NaN`
component makes the JS comparisons (hence the result) false. -/
def timesOverlap (start1 end1 start2 end2 : String) : Bool :=
  match timeToMinutes start1, timeToMinutes end1,
        timeToMinutes start2, timeToMinutes end2 with
  | some s1, some e1, some s2, some e2 => s1 < e2 && s2 < e1
  | _, _, _, _ => false

/-- `Subject` of `src/types/timetable.ts` (current version: `teacher` required;
`room` and `preferredTimeSlots` optional, modelled with `""`/`[]` as absent). -/
structure Subject where
  id : String
  name : String
  duration : Nat
  frequency : Nat
  preferredTimeSlots : List String
  teacher : String
  room : String
deriving DecidableEq, Repr

/-- `TimeSlot` of `src/types/timetable.ts`. -/
structure TimeSlot where
  id : String
  day : String
  startTime : String
  endTime : String
  duration : Nat
deriving DecidableEq, Repr

/-- `TimetableEntry` of `src/types/timetable.ts`. -/
structure TimetableEntry where
  id : String
  subjectId : String
  timeSlotId : String
  teacherId : String
  roomId : String
  day : String
  startTime : String
  endTime : String
deriving DecidableEq, Repr

/-- `Conflict` of `src/types/timetable.ts`. -/
structure Conflict where
  type : String
  description : String
  affectedEntries : List String
deriving DecidableEq, Repr

/-- `TimetableConfig` (the `resources` and `constraints` fields are never read
by the engine or validator and are omitted). -/
structure TimetableConfig where
  subjects : List Subject
  timeSlots : List TimeSlot
deriving DecidableEq, Repr

/-- `GeneratedTimetable` of `src/types/timetable.ts`. -/
structure GeneratedTimetable where
  entries : List TimetableEntry
  conflicts : List Conflict
  success : Bool
  completionRate : ℚ
deriving DecidableEq, Repr

/-- Result record of `validateConfiguration`. -/
structure ValidationResult where
  isValid : Bool
  errors : List String
  warnings : List String
deriving DecidableEq, Repr

/-! ### Message builders (string literals of the source, with interpolation) -/

def missingTeacherMsg (subjectName : String) : String :=
  "CONFIGURATION_ERROR: Subject \"" ++ subjectName ++ "\" must have a teacher assigned."

def workloadErrMsg (teacher : String) (totalSlots : Nat) : String :=
  "CONSTRAINT_VIOLATION: Teacher \"" ++ teacher ++ "\" assigned " ++ natStr totalSlots ++
    " slots/week (Maximum: 3). Please redistribute subjects or reduce frequency."

def capacityWarnMsg (teacher : String) : String :=
  "CAPACITY_WARNING: Teacher \"" ++ teacher ++
    "\" at maximum capacity (3/3 slots). No additional subjects can be assigned."

def durationMismatchMsg (subjectName : String) (duration : Nat) : String :=
  "DURATION_MISMATCH: Subject \"" ++ subjectName ++ "\" requires " ++ natStr duration ++
    " minutes but no time slots are long enough. Please adjust subject duration or add longer time slots."

def schedulingRiskMsg (subjectName : String) (requiredSlots daysAvailable : Nat) : String :=
  "SCHEDULING_RISK: Subject \"" ++ subjectName ++ "\" needs " ++ natStr requiredSlots ++
    " slots but only " ++ natStr daysAvailable ++
    " days available. May result in same-day assignments."

def roomRiskMsg (room : String) (numSubjects totalFrequency totalRoomSlots : Nat) : String :=
  "ROOM_CONFLICT_RISK: Room \"" ++ room ++ "\" assigned to " ++ natStr numSubjects ++
    " subjects (" ++ natStr totalFrequency ++ " total slots needed vs " ++
    natStr totalRoomSlots ++ " available). May cause scheduling conflicts."

/-! ### Configuration validator (`validateConfiguration`) -/

/-- One step of building the per-teacher workload map: add the subject's
`frequency` under its (truthy) teacher key. -/
def workloadStep (acc : List (String × Nat)) (s : Subject) : List (String × Nat) :=
  if s.teacher ≠ "" then
    if acc.any (fun p => p.1 == s.teacher) then
      acc.map (fun p => if p.1 == s.teacher then (p.1, p.2 + s.frequency) else p)
    else acc ++ [(s.teacher, s.frequency)]
  else acc

/-- The per-teacher workload map: `Map<string, number>` built by iterating the
subjects and adding each subject's `frequency` under its (truthy) teacher key;
represented as an association list in key-insertion order. -/
def teacherWorkloads (subjects : List Subject) : List (String × Nat) :=
  subjects.foldl workloadStep []

/-- The room→subject-names map built by `validateConfiguration`. -/
def roomAssignments (subjects : List Subject) : List (String × List String) :=
  subjects.foldl
    (fun acc s =>
      if s.room ≠ "" then
        if acc.any (fun p => p.1 == s.room) then
          acc.map (fun p => if p.1 == s.room then (p.1, p.2 ++ [s.name]) else p)
        else acc ++ [(s.room, [s.name])]
      else acc)
    []

/-- `validateConfiguration` of `src/lib/timetable-generator.ts`. -/
def validateConfiguration (config : TimetableConfig) : ValidationResult :=
  if config.subjects = [] then
    { isValid := false
      errors := ["VALIDATION_ERROR: No subjects defined. Please add at least one subject to generate a timetable."]
      warnings := [] }
  else if config.timeSlots = [] then
    { isValid := false
      errors := ["CONFIGURATION_ERROR: No time slots available. Please configure time slots before generation."]
      warnings := [] }
  else
    let missingTeacherErrs :=
      (config.subjects.filter (fun s => s.teacher == "" || s.teacher.trim == "")).map
        (fun s => missingTeacherMsg s.name)
    let workloads := teacherWorkloads config.subjects
    let workloadErrs :=
      (workloads.filter (fun p => p.2 > 3)).map (fun p => workloadErrMsg p.1 p.2)
    let capacityWarns :=
      (workloads.filter (fun p => p.2 = 3)).map (fun p => capacityWarnMsg p.1)
    let durationErrs :=
      (config.subjects.filter
        (fun s => config.timeSlots.filter (fun sl => sl.duration ≥ s.duration) = [])).map
        (fun s => durationMismatchMsg s.name s.duration)
    let riskWarns :=
      (config.subjects.filter
        (fun s =>
          s.frequency >
            (jsSetDedup ((config.timeSlots.filter (fun sl => sl.duration ≥ s.duration)).map
              (fun sl => sl.day))).length)).map
        (fun s =>
          schedulingRiskMsg s.name s.frequency
            (jsSetDedup ((config.timeSlots.filter (fun sl => sl.duration ≥ s.duration)).map
              (fun sl => sl.day))).length)
    let slotsPerDay := (config.timeSlots.filter (fun sl => sl.day == "Monday")).length
    let availableDays := (jsSetDedup (config.timeSlots.map (fun sl => sl.day))).length
    let roomWarns :=
      ((roomAssignments config.subjects).filter (fun p => p.2.length > 1)).filterMap
        (fun p =>
          let totalFrequency :=
            ((config.subjects.filter (fun s => s.room == p.1)).map
              (fun s => s.frequency)).sum
          let totalRoomSlots := slotsPerDay * availableDays
          if totalFrequency > totalRoomSlots then
            some (roomRiskMsg p.1 p.2.length totalFrequency totalRoomSlots)
          else none)
    let errors := missingTeacherErrs ++ workloadErrs ++ durationErrs
    { isValid := errors = []
      errors := errors
      warnings := capacityWarns ++ riskWarns ++ roomWarns }

/-! ### Assignment engine -/

/-- `getTeacherAssignedDays`: distinct days (first-occurrence order) on which
the teacher already has committed assignments. -/
def getTeacherAssignedDays (assignments : List TimetableEntry) (teacherName : String) :
    List String :=
  jsSetDedup ((assignments.filter (fun a => a.teacherId == teacherName)).map
    (fun a => a.day))

/-- `getTeacherTotalLoad`: declared weekly frequency total for a teacher across
the configured subjects. -/
def getTeacherTotalLoad (config : TimetableConfig) (teacherName : String) : Nat :=
  ((config.subjects.filter (fun s => s.teacher == teacherName)).map
    (fun s => s.frequency)).sum

/-- `getTeacherCurrentLoad`: committed assignments so far for a teacher. -/
def getTeacherCurrentLoad (assignments : List TimetableEntry) (teacherName : String) : Nat :=
  (assignments.filter (fun a => a.teacherId == teacherName)).length

/-- The two sequential filters of `getAvailableSlots`: preferred slots (when
the preference list is truthy/non-empty), then sufficient duration. -/
def filteredSlots (config : TimetableConfig) (subject : Subject) : List TimeSlot :=
  let slots0 := config.timeSlots
  let slots1 :=
    if subject.preferredTimeSlots ≠ [] then
      slots0.filter (fun sl => subject.preferredTimeSlots.contains sl.id)
    else slots0
  slots1.filter (fun sl => sl.duration ≥ subject.duration)

/-- `getAvailableSlots`: filter by preferred slots (when given), then by
duration; when the subject has a (truthy) teacher, place slots on days the
teacher does not use yet before slots on days already used. -/
def getAvailableSlots (config : TimetableConfig) (assignments : List TimetableEntry)
    (subject : Subject) : List TimeSlot :=
  let slots := filteredSlots config subject
  if subject.teacher ≠ "" then
    let teacherAssignedDays := getTeacherAssignedDays assignments subject.teacher
    let slotsOnNewDays := slots.filter (fun sl => !(teacherAssignedDays.contains sl.day))
    let slotsOnExistingDays := slots.filter (fun sl => teacherAssignedDays.contains sl.day)
    slotsOnNewDays ++ slotsOnExistingDays
  else slots

/-- Subject name looked up by id, with the source's fallback text. -/
def subjectNameById (config : TimetableConfig) (subjectId : String) : String :=
  match config.subjects.find? (fun s => s.id == subjectId) with
  | some s => s.name
  | none => "Unknown Subject"

/-- `durationConfs` of `detectConflicts`: slot too short for the subject. -/
def detectDurationConfs (subject : Subject) (slot : TimeSlot) : List String :=
  if slot.duration < subject.duration then
    ["Insufficient time slot duration: " ++ natStr slot.duration ++ "min < " ++
      natStr subject.duration ++ "min required"]
  else []

/-- The committed assignments that occupy the slot's day/time window. -/
def timeConflictingAssignments (assignments : List TimetableEntry) (slot : TimeSlot) :
    List TimetableEntry :=
  assignments.filter (fun a =>
    a.day == slot.day &&
      timesOverlap a.startTime a.endTime slot.startTime slot.endTime)

/-- `timeConfs` of `detectConflicts`: occupied-slot report. -/
def detectTimeConfs (config : TimetableConfig) (assignments : List TimetableEntry)
    (slot : TimeSlot) : List String :=
  if timeConflictingAssignments assignments slot ≠ [] then
    ["Time slot already occupied by: " ++
      ", ".intercalate ((timeConflictingAssignments assignments slot).map
        (fun a => subjectNameById config a.subjectId))]
  else []

/-- `teacherConfs` of `detectConflicts`: teacher double-booking plus the
weekly-cap check, both only when the subject has a (truthy) teacher. -/
def detectTeacherConfs (config : TimetableConfig) (assignments : List TimetableEntry)
    (subject : Subject) (slot : TimeSlot) : List String :=
  if subject.teacher ≠ "" then
    let teacherConflictingAssignments :=
      assignments.filter (fun a =>
        a.teacherId == subject.teacher && a.day == slot.day &&
          timesOverlap a.startTime a.endTime slot.startTime slot.endTime)
    let overlapConfs :=
      if teacherConflictingAssignments ≠ [] then
        ["Teacher " ++ subject.teacher ++ " is already assigned to: " ++
          ", ".intercalate (teacherConflictingAssignments.map
            (fun a => subjectNameById config a.subjectId)) ++ " at this time"]
      else []
    let teacherWeeklyAssignments :=
      assignments.filter (fun a => a.teacherId == subject.teacher)
    let capConfs :=
      if teacherWeeklyAssignments.length ≥ 3 then
        ["Teacher " ++ subject.teacher ++
          " has reached maximum weekly limit (3 slots). Current assignments: " ++
          natStr teacherWeeklyAssignments.length]
      else []
    overlapConfs ++ capConfs
  else []

/-- `roomConfs` of `detectConflicts`: room double-booking, only when the
subject has a (truthy) room. -/
def detectRoomConfs (config : TimetableConfig) (assignments : List TimetableEntry)
    (subject : Subject) (slot : TimeSlot) : List String :=
  if subject.room ≠ "" then
    let roomConflictingAssignments :=
      assignments.filter (fun a =>
        a.roomId == subject.room && a.day == slot.day &&
          timesOverlap a.startTime a.endTime slot.startTime slot.endTime)
    if roomConflictingAssignments ≠ [] then
      ["Room " ++ subject.room ++ " is already occupied by: " ++
        ", ".intercalate (roomConflictingAssignments.map
          (fun a => subjectNameById config a.subjectId)) ++ " at this time"]
    else []
  else []

/-- `detectConflicts`: the list of violation strings for scheduling `subject`
into `slot` given the committed `assignments`; all checks evaluated, in source
order. -/
def detectConflicts (config : TimetableConfig) (assignments : List TimetableEntry)
    (subject : Subject) (slot : TimeSlot) : List String :=
  detectDurationConfs subject slot ++
    detectTimeConfs config assignments slot ++
    detectTeacherConfs config assignments subject slot ++
    detectRoomConfs config assignments subject slot

/-- `canAssign`: a slot is usable iff conflict detection returns nothing. -/
def canAssign (config : TimetableConfig) (assignments : List TimetableEntry)
    (subject : Subject) (slot : TimeSlot) : Bool :=
  detectConflicts config assignments subject slot = []

/-- `generateSuggestions`: remediation texts selected by pattern-matching the
collected violation strings. -/
def generateSuggestions (config : TimetableConfig) (subject : Subject)
    (conflicts : List String) : List String :=
  let s1 :=
    if conflicts.any (fun c => jsIncludes c "Teacher" && jsIncludes c "already assigned") then
      ["Assign a different teacher or adjust teacher" ++ apos ++ "s schedule"]
    else []
  let s2 :=
    if conflicts.any (fun c => jsIncludes c "maximum weekly limit") then
      ["Teacher " ++ subject.teacher ++
        " has reached 3 slots/week limit. Consider: (1) Assign different teacher, (2) Reduce subject frequency, (3) Distribute slots across multiple teachers"]
    else []
  let s3 :=
    if conflicts.any (fun c => jsIncludes c "Room") then
      ["Assign a different room or create additional room slots"]
    else []
  let s4 :=
    if conflicts.any (fun c => jsIncludes c "Time slot already occupied") then
      ["Add more parallel time slots or reschedule conflicting subjects"]
    else []
  let s5 :=
    if conflicts.any (fun c => jsIncludes c "Insufficient time slot duration") then
      ["Extend time slots to at least " ++ natStr subject.duration ++
        " minutes or reduce subject duration to 50 minutes (standard period)"]
    else []
  let s6 :=
    if subject.frequency > 1 then
      ["Consider reducing subject frequency per week to better fit teacher constraints"]
    else []
  let s7 :=
    if subject.teacher ≠ "" then
      let totalFrequency := getTeacherTotalLoad config subject.teacher
      if totalFrequency > 3 then
        ["Teacher " ++ subject.teacher ++ " is assigned " ++ natStr totalFrequency ++
          " total slots across subjects. Consider redistributing to stay within 3 slots/week limit"]
      else []
    else []
  s1 ++ s2 ++ s3 ++ s4 ++ s5 ++ s6 ++ s7

/-- `generateConflictReport`: the multi-line report for an unschedulable
occurrence. -/
def generateConflictReport (config : TimetableConfig) (assignments : List TimetableEntry)
    (subject : Subject) (conflictsBySlot : List (String × List String))
    (availableSlots : List TimeSlot) : String :=
  let base := "Unable to schedule \"" ++ subject.name ++ "\""
  let base :=
    if subject.teacher ≠ "" then
      let assignedDays := getTeacherAssignedDays assignments subject.teacher
      if assignedDays ≠ [] then
        base ++ " (Teacher " ++ subject.teacher ++ " currently assigned on: " ++
          ", ".intercalate assignedDays ++ ")"
      else base
    else base
  let base := base ++ ":\n\n"
  if availableSlots = [] then
    let base := base ++ "No compatible time slots found. "
    let suggestions :=
      (if subject.duration > 50 then
        ["Consider reducing subject duration to 50 minutes (standard period)"]
      else []) ++
      (if subject.preferredTimeSlots ≠ [] then
        ["Consider expanding preferred time slots"]
      else []) ++
      ["Add more time slots to the schedule"]
    if suggestions ≠ [] then
      base ++ "Suggestions: " ++ ", ".intercalate suggestions ++ "."
    else base
  else
    let base := base ++ "Conflicts found in available time slots:\n"
    let base :=
      base ++ String.join (conflictsBySlot.map
        (fun p => "• " ++ p.1 ++ ": " ++ "; ".intercalate p.2 ++ "\n"))
    let allConflicts := (conflictsBySlot.map (fun p => p.2)).flatten
    let suggestions := generateSuggestions config subject allConflicts
    let suggestions :=
      if subject.teacher ≠ "" then
        let assignedDays := getTeacherAssignedDays assignments subject.teacher
        let totalAssignments := getTeacherCurrentLoad assignments subject.teacher
        suggestions ++
          (if assignedDays.length = 1 ∧ totalAssignments ≥ 2 then
            ["Consider redistributing " ++ subject.teacher ++ apos ++
              "s existing assignments across different days for better balance"]
          else []) ++
          (if assignedDays.length ≥ 3 then
            ["Teacher " ++ subject.teacher ++ " is already spread across " ++
              natStr assignedDays.length ++
              " days. Consider using fewer days or different teacher"]
          else [])
      else suggestions
    if suggestions ≠ [] then
      base ++ "\nSuggestions: " ++ ", ".intercalate suggestions ++ "."
    else base

/-- Upsert into the `conflictsBySlot` map (JS `Map.set`: overwrite in place,
keep insertion position; new keys appended). -/
def mapSet (m : List (String × List String)) (k : String) (v : List String) :
    List (String × List String) :=
  if m.any (fun p => p.1 == k) then
    m.map (fun p => if p.1 == k then (k, v) else p)
  else m ++ [(k, v)]

/-- The slot-scanning loop of `assignSubject`: return the first conflict-free
slot, or the accumulated per-slot conflict map when none is. -/
def scanSlots (config : TimetableConfig) (assignments : List TimetableEntry)
    (subject : Subject) :
    List TimeSlot → List (String × List String) →
      Option TimeSlot × List (String × List String)
  | [], cbs => (none, cbs)
  | slot :: rest, cbs =>
    let slotConflicts := detectConflicts config assignments subject slot
    if slotConflicts = [] then (some slot, cbs)
    else
      scanSlots config assignments subject rest
        (mapSet cbs (slot.day ++ " " ++ slot.startTime ++ "-" ++ slot.endTime) slotConflicts)

/-- The entry committed for `subject` in `slot`; `suffix` is the
oracle-supplied unpredictable part of the fresh id. -/
def mkEntry (subject : Subject) (slot : TimeSlot) (suffix : String) : TimetableEntry :=
  { id := subject.id ++ "-" ++ slot.id ++ "-" ++ suffix
    subjectId := subject.id
    timeSlotId := slot.id
    teacherId := subject.teacher
    roomId := subject.room
    day := slot.day
    startTime := slot.startTime
    endTime := slot.endTime }

/-- `assignSubject`: try the available slots in order; on success return the
new entry, on failure return the single aggregate conflict that the source
pushes onto `this.conflicts`. -/
def assignSubject (config : TimetableConfig) (assignments : List TimetableEntry)
    (subject : Subject) (suffix : String) :
    Option TimetableEntry × List Conflict :=
  let availableSlots := getAvailableSlots config assignments subject
  match scanSlots config assignments subject availableSlots [] with
  | (some slot, _) => (some (mkEntry subject slot suffix), [])
  | (none, cbs) =>
    (none,
      [{ type := "scheduling_conflict"
         description := generateConflictReport config assignments subject cbs availableSlots
         affectedEntries := [] }])

/-- The five-key comparator of `prioritizeSubjects` (negative means `a` before
`b`); invoked by `generateTimetable` with the just-cleared (empty) assignment
list. -/
def compareSubjects (config : TimetableConfig) (assignments : List TimetableEntry)
    (a b : Subject) : Int :=
  let aTeacherDays := (getTeacherAssignedDays assignments a.teacher).length
  let bTeacherDays := (getTeacherAssignedDays assignments b.teacher).length
  if aTeacherDays ≠ bTeacherDays then (aTeacherDays : Int) - bTeacherDays
  else
    let aTeacherLoad := getTeacherTotalLoad config a.teacher
    let bTeacherLoad := getTeacherTotalLoad config b.teacher
    if aTeacherLoad ≠ bTeacherLoad then (aTeacherLoad : Int) - bTeacherLoad
    else
      let aNewDaySlots :=
        ((getAvailableSlots config assignments a).filter
          (fun sl => !((getTeacherAssignedDays assignments a.teacher).contains sl.day))).length
      let bNewDaySlots :=
        ((getAvailableSlots config assignments b).filter
          (fun sl => !((getTeacherAssignedDays assignments b.teacher).contains sl.day))).length
      if aNewDaySlots ≠ bNewDaySlots then (bNewDaySlots : Int) - aNewDaySlots
      else
        let aSlots := (getAvailableSlots config assignments a).length
        let bSlots := (getAvailableSlots config assignments b).length
        if aSlots ≠ bSlots then (aSlots : Int) - bSlots
        else (b.frequency : Int) - a.frequency

/-- `prioritizeSubjects`: JS `Array.prototype.sort` is stable and the
comparator is a lexicographic key comparison (hence consistent), so a stable
merge sort reproduces it exactly. -/
def prioritizeSubjects (config : TimetableConfig) (assignments : List TimetableEntry) :
    List Subject :=
  config.subjects.mergeSort (fun a b => compareSubjects config assignments a b ≤ 0)

/-- Mutable scratch state of one `generateTimetable` run. -/
structure GenState where
  assignments : List TimetableEntry
  conflicts : List Conflict
  total : Nat
  succ : Nat
deriving Repr

/-- One per-occurrence attempt of the main loop: bump the attempt counter and
either commit the entry or record the aggregate conflict. -/
def stepAttempt (config : TimetableConfig) (oracle : Nat → String) (subject : Subject)
    (st : GenState) : GenState :=
  match assignSubject config st.assignments subject (oracle st.total) with
  | (some e, cs) =>
    { assignments := st.assignments ++ [e]
      conflicts := st.conflicts ++ cs
      total := st.total + 1
      succ := st.succ + 1 }
  | (none, cs) =>
    { assignments := st.assignments
      conflicts := st.conflicts ++ cs
      total := st.total + 1
      succ := st.succ }

/-- Process one subject: `frequency` independent attempts. -/
def processSubject (config : TimetableConfig) (oracle : Nat → String) (st : GenState)
    (subject : Subject) : GenState :=
  (List.range subject.frequency).foldl (fun s _ => stepAttempt config oracle subject s) st

/-- Process the prioritized subject list in order. -/
def runSubjects (config : TimetableConfig) (oracle : Nat → String)
    (subjects : List Subject) (st : GenState) : GenState :=
  subjects.foldl (processSubject config oracle) st

/-- The freshly-cleared scratch state at the start of a run. -/
def initState : GenState :=
  { assignments := [], conflicts := [], total := 0, succ := 0 }

/-- `generateTimetable`: clear state, sort subjects, run every occurrence of
every subject, then assemble the result record. -/
def generateTimetable (config : TimetableConfig) (oracle : Nat → String) :
    GeneratedTimetable :=
  let sortedSubjects := prioritizeSubjects config []
  let final := runSubjects config oracle sortedSubjects initState
  let completionRate : ℚ :=
    if final.total > 0 then ((final.succ : ℚ) / (final.total : ℚ)) * 100 else 0
  { entries := final.assignments
    conflicts := final.conflicts
    success := final.conflicts.isEmpty && decide (completionRate = 100)
    completionRate := completionRate }

/-- The scratch state after the main loop of `generateTimetable`. -/
def finalState (config : TimetableConfig) (oracle : Nat → String) : GenState :=
  runSubjects config oracle (prioritizeSubjects config []) initState

/-- The completion rate computed by `generateTimetable`. -/
def finalRate (config : TimetableConfig) (oracle : Nat → String) : ℚ :=
  if (finalState config oracle).total > 0 then
    (((finalState config oracle).succ : ℚ) / ((finalState config oracle).total : ℚ)) * 100
  else 0

theorem generateTimetable_entries_def (config : TimetableConfig) (oracle : Nat → String) :
    (generateTimetable config oracle).entries = (finalState config oracle).assignments := rfl

theorem generateTimetable_conflicts_def (config : TimetableConfig) (oracle : Nat → String) :
    (generateTimetable config oracle).conflicts = (finalState config oracle).conflicts := rfl

theorem generateTimetable_rate_def (config : TimetableConfig) (oracle : Nat → String) :
    (generateTimetable config oracle).completionRate = finalRate config oracle := rfl

theorem generateTimetable_success_def (config : TimetableConfig) (oracle : Nat → String) :
    (generateTimetable config oracle).success =
      ((finalState config oracle).conflicts.isEmpty &&
        decide (finalRate config oracle = 100)) := rfl

/-! ### Interactive conflict re-checker (page controller, `src/unnamed/part_000`) -/

/-- `Partial<TimetableEntry>` update record: a field is `none` when absent. -/
structure EntryUpdates where
  subjectId : Option String := none
  timeSlotId : Option String := none
  teacherId : Option String := none
  roomId : Option String := none
  day : Option String := none
  startTime : Option String := none
  endTime : Option String := none
deriving DecidableEq, Repr

/-- JS object spread `{ ...entry, ...updates }`. -/
def applyUpdates (e : TimetableEntry) (u : EntryUpdates) : TimetableEntry :=
  { id := e.id
    subjectId := u.subjectId.getD e.subjectId
    timeSlotId := u.timeSlotId.getD e.timeSlotId
    teacherId := u.teacherId.getD e.teacherId
    roomId := u.roomId.getD e.roomId
    day := u.day.getD e.day
    startTime := u.startTime.getD e.startTime
    endTime := u.endTime.getD e.endTime }

def timeConflictMsg (newDay newStartTime : String) : String :=
  "TIME_CONFLICT: Time slot " ++ newDay ++ " " ++ newStartTime ++ " is already occupied"

def teacherConflictMsg (teacher newDay newStartTime : String) : String :=
  "TEACHER_CONFLICT: " ++ teacher ++ " is already assigned at " ++ newDay ++ " " ++ newStartTime

def workloadViolationMsg (teacher : String) (count : Nat) : String :=
  "WORKLOAD_VIOLATION: Teacher " ++ teacher ++ " would exceed 3 slots/week limit (currently " ++
    natStr count ++ ")"

def roomConflictMsg (room newDay newStartTime : String) : String :=
  "ROOM_CONFLICT: Room " ++ room ++ " is already occupied at " ++ newDay ++ " " ++ newStartTime

def invalidSubjectMsg (subjectId : String) : String :=
  "INVALID_SUBJECT: Subject with ID \"" ++ subjectId ++ "\" does not exist"

/-- `checkUpdateConflicts` of the page controller: targeted re-validation of a
partial update of an existing entry, against all *other* entries. Each block
runs only when the corresponding field is (truthily) present and different
from the current value. -/
def checkUpdateConflicts (timetable : GeneratedTimetable) (subjects : List Subject)
    (entryId : String) (updates : EntryUpdates) : List String :=
  match timetable.entries.find? (fun e => e.id == entryId) with
  | none => []
  | some currentEntry =>
    let newDay := jsOr updates.day currentEntry.day
    let newStartTime := jsOr updates.startTime currentEntry.startTime
    let timeConfs :=
      if (jsTruthy updates.day && updates.day.getD "" != currentEntry.day) ||
          (jsTruthy updates.startTime && updates.startTime.getD "" != currentEntry.startTime) then
        if (timetable.entries.filter (fun e =>
            e.id != entryId && e.day == newDay && e.startTime == newStartTime)) ≠ [] then
          [timeConflictMsg newDay newStartTime]
        else []
      else []
    let teacherConfs :=
      if jsTruthy updates.teacherId && updates.teacherId.getD "" != currentEntry.teacherId then
        let newTeacher := updates.teacherId.getD ""
        let overlapConfs :=
          if (timetable.entries.filter (fun e =>
              e.id != entryId && e.teacherId == newTeacher &&
                e.day == newDay && e.startTime == newStartTime)) ≠ [] then
            [teacherConflictMsg newTeacher newDay newStartTime]
          else []
        let teacherWeeklyCount :=
          (timetable.entries.filter (fun e =>
            e.id != entryId && e.teacherId == newTeacher)).length
        let capConfs :=
          if teacherWeeklyCount ≥ 3 then
            [workloadViolationMsg newTeacher teacherWeeklyCount]
          else []
        overlapConfs ++ capConfs
      else []
    let roomConfs :=
      if jsTruthy updates.roomId && updates.roomId.getD "" != currentEntry.roomId then
        let newRoom := updates.roomId.getD ""
        if (timetable.entries.filter (fun e =>
            e.id != entryId && e.roomId == newRoom &&
              e.day == newDay && e.startTime == newStartTime)) ≠ [] then
          [roomConflictMsg newRoom newDay newStartTime]
        else []
      else []
    let subjectConfs :=
      if jsTruthy updates.subjectId && updates.subjectId.getD "" != currentEntry.subjectId then
        if subjects.find? (fun s => s.id == updates.subjectId.getD "") = none then
          [invalidSubjectMsg (updates.subjectId.getD "")]
        else []
      else []
    timeConfs ++ teacherConfs ++ roomConfs ++ subjectConfs

/-- `handleUpdateEntry` of the page controller: validate, and either return
the violations leaving the timetable untouched, or apply the update (clearing
the stale generation-time conflicts). -/
def handleUpdateEntry (timetable : GeneratedTimetable) (subjects : List Subject)
    (entryId : String) (updates : EntryUpdates) :
    List String × GeneratedTimetable :=
  let conflicts := checkUpdateConflicts timetable subjects entryId updates
  if conflicts ≠ [] then (conflicts, timetable)
  else
    ([],
      { timetable with
        entries := timetable.entries.map
          (fun e => if e.id == entryId then applyUpdates e updates else e)
        conflicts := [] })

/-! ## Helper lemmas about the generation loop -/

/-- A fold that ignores the list elements is an iterate. -/
theorem foldl_ignore {α β : Type} (f : β → β) (l : List α) (st : β) :
    l.foldl (fun s _ => f s) st = f^[l.length] st := by
  induction l generalizing st with
  | nil => rfl
  | cons a t ih => simp [List.foldl_cons, Function.iterate_succ_apply, ih]

theorem processSubject_eq_iterate (config : TimetableConfig) (oracle : Nat → String)
    (st : GenState) (subject : Subject) :
    processSubject config oracle st subject =
      (stepAttempt config oracle subject)^[subject.frequency] st := by
  unfold processSubject
  rw [foldl_ignore, List.length_range]

theorem iterate_inv {α : Type} (f : α → α) (P : α → Prop)
    (hf : ∀ a, P a → P (f a)) : ∀ n a, P a → P (f^[n] a) := by
  intro n
  induction n with
  | zero => intro a h; exact h
  | succ n ih =>
    intro a h
    rw [Function.iterate_succ_apply]
    exact ih _ (hf _ h)

/-- Shape of `assignSubject`: success commits one entry and no conflict;
failure commits no entry and exactly one conflict. -/
theorem assignSubject_shape (config : TimetableConfig) (assignments : List TimetableEntry)
    (subject : Subject) (suffix : String) :
    (∃ e, assignSubject config assignments subject suffix = (some e, [])) ∨
    (∃ c, assignSubject config assignments subject suffix = (none, [c])) := by
  rcases h : scanSlots config assignments subject
      (getAvailableSlots config assignments subject) [] with ⟨os, cbs⟩
  cases os with
  | none =>
    right
    refine ⟨{ type := "scheduling_conflict"
              description := generateConflictReport config assignments subject cbs
                (getAvailableSlots config assignments subject)
              affectedEntries := [] }, ?_⟩
    simp only [assignSubject, h]
  | some slot =>
    left
    refine ⟨mkEntry subject slot suffix, ?_⟩
    simp only [assignSubject, h]

/-- The per-attempt step bumps `total` by one and adds exactly one item,
either an entry or a conflict; it preserves the basic counter invariant. -/
theorem stepAttempt_counters (config : TimetableConfig) (oracle : Nat → String)
    (subject : Subject) (st : GenState)
    (h : st.succ = st.assignments.length ∧
      st.total = st.assignments.length + st.conflicts.length) :
    (stepAttempt config oracle subject st).succ =
        (stepAttempt config oracle subject st).assignments.length ∧
      (stepAttempt config oracle subject st).total =
        (stepAttempt config oracle subject st).assignments.length +
          (stepAttempt config oracle subject st).conflicts.length := by
  obtain ⟨h1, h2⟩ := h
  rcases assignSubject_shape config st.assignments subject (oracle st.total) with
    ⟨e, he⟩ | ⟨c, hc⟩
  · simp only [stepAttempt, he]
    simp [List.length_append]
    omega
  · simp only [stepAttempt, hc]
    simp [List.length_append]
    omega

theorem stepAttempt_total (config : TimetableConfig) (oracle : Nat → String)
    (subject : Subject) (st : GenState) :
    (stepAttempt config oracle subject st).total = st.total + 1 := by
  rcases assignSubject_shape config st.assignments subject (oracle st.total) with
    ⟨e, he⟩ | ⟨c, hc⟩
  · simp [stepAttempt, he]
  · simp [stepAttempt, hc]

theorem iterate_total (config : TimetableConfig) (oracle : Nat → String)
    (subject : Subject) : ∀ (n : Nat) (st : GenState),
    ((stepAttempt config oracle subject)^[n] st).total = st.total + n := by
  intro n
  induction n with
  | zero => intro st; rfl
  | succ n ih =>
    intro st
    rw [Function.iterate_succ_apply, ih, stepAttempt_total]
    omega

theorem runSubjects_total (config : TimetableConfig) (oracle : Nat → String) :
    ∀ (subjects : List Subject) (st : GenState),
    (runSubjects config oracle subjects st).total =
      st.total + (subjects.map (fun s => s.frequency)).sum := by
  intro subjects
  induction subjects with
  | nil => intro st; simp [runSubjects]
  | cons s t ih =>
    intro st
    show (runSubjects config oracle t (processSubject config oracle st s)).total = _
    rw [ih, processSubject_eq_iterate, iterate_total]
    simp [Nat.add_assoc]

theorem runSubjects_inv (config : TimetableConfig) (oracle : Nat → String)
    (P : GenState → Prop)
    (hstep : ∀ subject st, P st → P (stepAttempt config oracle subject st)) :
    ∀ (subjects : List Subject) (st : GenState), P st →
      P (runSubjects config oracle subjects st) := by
  intro subjects
  induction subjects with
  | nil => intro st h; exact h
  | cons s t ih =>
    intro st h
    refine ih _ ?_
    rw [processSubject_eq_iterate]
    exact iterate_inv _ P (hstep s) _ _ h

/-- The two counter invariants hold of the final state of a run. -/
theorem final_counters (config : TimetableConfig) (oracle : Nat → String) :
    (finalState config oracle).succ = (finalState config oracle).assignments.length ∧
      (finalState config oracle).total =
        (finalState config oracle).assignments.length +
          (finalState config oracle).conflicts.length := by
  exact
    runSubjects_inv config oracle
      (fun st => st.succ = st.assignments.length ∧
        st.total = st.assignments.length + st.conflicts.length)
      (fun subject st h => stepAttempt_counters config oracle subject st h)
      _ _ ⟨rfl, rfl⟩

/-- The total number of attempts equals the frequency sum of the configured
subjects (the prioritized list is a permutation of them). -/
theorem final_total (config : TimetableConfig) (oracle : Nat → String) :
    (finalState config oracle).total = (config.subjects.map (fun s => s.frequency)).sum := by
  unfold finalState
  rw [runSubjects_total]
  have hperm : List.Perm (prioritizeSubjects config []) config.subjects :=
    List.mergeSort_perm config.subjects _
  rw [List.Perm.sum_eq (hperm.map (fun s => s.frequency))]
  simp [initState]

/-! ## Claim theorems: result-record arithmetic -/

/-- C2: the generated timetable's `success` flag is `true` exactly when the
conflicts list is empty and the completion rate equals 100. -/
theorem generateTimetable_success_iff (config : TimetableConfig) (oracle : Nat → String) :
    (generateTimetable config oracle).success = true ↔
      (generateTimetable config oracle).conflicts = [] ∧
        (generateTimetable config oracle).completionRate = 100 := by
  rw [generateTimetable_success_def, generateTimetable_conflicts_def,
    generateTimetable_rate_def]
  simp [Bool.and_eq_true, List.isEmpty_iff, decide_eq_true_iff]

/-- C3: the completion rate equals `100 * successCount / totalAttempts` where
`totalAttempts` is the frequency sum over all subjects and `successCount` the
number of entries produced, and it lies in `[0, 100]`. -/
theorem generateTimetable_completionRate_eq (config : TimetableConfig)
    (oracle : Nat → String) :
    (generateTimetable config oracle).completionRate =
        100 * ((generateTimetable config oracle).entries.length : ℚ) /
          (((config.subjects.map (fun s => s.frequency)).sum : Nat) : ℚ) ∧
      0 ≤ (generateTimetable config oracle).completionRate ∧
      (generateTimetable config oracle).completionRate ≤ 100 := by
  obtain ⟨h1, h2⟩ := final_counters config oracle
  have ht := final_total config oracle
  rw [generateTimetable_rate_def, generateTimetable_entries_def]
  unfold finalRate
  set final := finalState config oracle with hfinal
  set N := (config.subjects.map (fun s => s.frequency)).sum with hN
  by_cases hpos : final.total > 0
  · rw [if_pos hpos]
    have hNpos : 0 < N := ht ▸ hpos
    have hle : final.assignments.length ≤ N := by omega
    have hleQ : (final.assignments.length : ℚ) ≤ (N : ℚ) := by exact_mod_cast hle
    have hNQ : (0 : ℚ) < (N : ℚ) := by exact_mod_cast hNpos
    refine ⟨?_, ?_, ?_⟩
    · rw [h1, ht]
      ring
    · positivity
    · rw [h1, ht]
      have hq : (final.assignments.length : ℚ) / (N : ℚ) ≤ 1 :=
        (div_le_one hNQ).mpr hleQ
      nlinarith
  · rw [if_neg hpos]
    have hlen : final.assignments.length = 0 := by omega
    rw [hlen]
    norm_num

/-- C4: every required occurrence yields exactly one entry or exactly one
conflict, so entries plus conflicts equals the total frequency sum. -/
theorem generateTimetable_entries_add_conflicts (config : TimetableConfig)
    (oracle : Nat → String) :
    (generateTimetable config oracle).entries.length +
        (generateTimetable config oracle).conflicts.length =
      (config.subjects.map (fun s => s.frequency)).sum := by
  obtain ⟨h1, h2⟩ := final_counters config oracle
  have ht := final_total config oracle
  rw [generateTimetable_entries_def, generateTimetable_conflicts_def]
  omega

/-! ## Helper lemmas for the scheduling invariants -/

/-- Membership-aware invariant preservation along a run. -/
theorem runSubjects_inv_mem (config : TimetableConfig) (oracle : Nat → String)
    (P : GenState → Prop) :
    ∀ (subjects : List Subject),
      (∀ subject ∈ subjects, ∀ st, P st → P (stepAttempt config oracle subject st)) →
      ∀ st, P st → P (runSubjects config oracle subjects st) := by
  intro subjects
  induction subjects with
  | nil => intro _ st h; exact h
  | cons s t ih =>
    intro hstep st h
    refine ih (fun x hx => hstep x (List.mem_cons_of_mem s hx)) _ ?_
    rw [processSubject_eq_iterate]
    exact iterate_inv _ P (hstep s (List.mem_cons_self s t)) _ _ h

/-- A successful scan returns a member slot that was conflict-free. -/
theorem scanSlots_some (config : TimetableConfig) (assignments : List TimetableEntry)
    (subject : Subject) :
    ∀ (slots : List TimeSlot) (cbs : List (String × List String)) (slot : TimeSlot)
      (cbs' : List (String × List String)),
      scanSlots config assignments subject slots cbs = (some slot, cbs') →
      slot ∈ slots ∧ detectConflicts config assignments subject slot = [] := by
  intro slots
  induction slots with
  | nil => intro cbs slot cbs' h; simp [scanSlots] at h
  | cons s rest ih =>
    intro cbs slot cbs' h
    by_cases hc : detectConflicts config assignments subject s = []
    · rw [scanSlots, if_pos hc] at h
      simp only [Prod.mk.injEq, Option.some.injEq] at h
      obtain ⟨h1, _⟩ := h
      subst h1
      exact ⟨List.mem_cons_self _ _, hc⟩
    · rw [scanSlots, if_neg hc] at h
      obtain ⟨hm, hd⟩ := ih _ slot cbs' h
      exact ⟨List.mem_cons_of_mem _ hm, hd⟩

/-- A successful `assignSubject` commits the entry built from a conflict-free
available slot. -/
theorem assignSubject_some_spec (config : TimetableConfig)
    (assignments : List TimetableEntry) (subject : Subject) (suffix : String)
    (e : TimetableEntry) (cs : List Conflict)
    (h : assignSubject config assignments subject suffix = (some e, cs)) :
    ∃ slot, slot ∈ getAvailableSlots config assignments subject ∧
      detectConflicts config assignments subject slot = [] ∧
      e = mkEntry subject slot suffix ∧ cs = [] := by
  rcases hs : scanSlots config assignments subject
      (getAvailableSlots config assignments subject) [] with ⟨os, cbs⟩
  cases os with
  | none =>
    exfalso
    simp only [assignSubject, hs] at h
    exact Option.noConfusion (congrArg Prod.fst h)
  | some slot =>
    simp only [assignSubject, hs, Prod.mk.injEq, Option.some.injEq] at h
    obtain ⟨he, hcs⟩ := h
    obtain ⟨hm, hd⟩ := scanSlots_some config assignments subject _ _ _ _ hs
    exact ⟨slot, hm, hd, he.symm, hcs.symm⟩

/-- Any available slot is a configured slot that is long enough for the
subject. -/
theorem getAvailableSlots_mem (config : TimetableConfig)
    (assignments : List TimetableEntry) (subject : Subject) (slot : TimeSlot)
    (h : slot ∈ getAvailableSlots config assignments subject) :
    slot ∈ config.timeSlots ∧ subject.duration ≤ slot.duration := by
  have key : slot ∈ filteredSlots config subject →
      slot ∈ config.timeSlots ∧ subject.duration ≤ slot.duration := by
    intro hf
    unfold filteredSlots at hf
    obtain ⟨h2, h3⟩ := List.mem_filter.mp hf
    by_cases hp : subject.preferredTimeSlots ≠ []
    · rw [if_pos hp] at h2
      exact ⟨(List.mem_filter.mp h2).1, by simpa using h3⟩
    · rw [if_neg hp] at h2
      exact ⟨h2, by simpa using h3⟩
  unfold getAvailableSlots at h
  by_cases ht : subject.teacher ≠ ""
  · rw [if_pos ht] at h
    rcases List.mem_append.mp h with h' | h' <;>
      exact key (List.mem_filter.mp h').1
  · rw [if_neg ht] at h
    exact key h

/-- Consequences of an empty conflict list: no committed entry on the slot's
day overlaps it, and (when the subject has a teacher) the teacher is strictly
below the weekly cap. -/
theorem detectConflicts_nil_facts (config : TimetableConfig)
    (assignments : List TimetableEntry) (subject : Subject) (slot : TimeSlot)
    (h : detectConflicts config assignments subject slot = []) :
    (assignments.filter (fun a =>
      a.day == slot.day &&
        timesOverlap a.startTime a.endTime slot.startTime slot.endTime)) = [] ∧
    (subject.teacher ≠ "" →
      (assignments.filter (fun a => a.teacherId == subject.teacher)).length < 3) := by
  unfold detectConflicts at h
  rw [List.append_eq_nil, List.append_eq_nil, List.append_eq_nil] at h
  have htime := h.1.1.2
  have hteach := h.1.2
  constructor
  · by_contra hne
    unfold detectTimeConfs at htime
    rw [if_pos (by exact hne)] at htime
    exact List.cons_ne_nil _ _ htime
  · intro ht
    unfold detectTeacherConfs at hteach
    rw [if_pos ht] at hteach
    simp only at hteach
    rw [List.append_eq_nil] at hteach
    obtain ⟨_, hcap⟩ := hteach
    by_contra hge
    rw [if_pos (Nat.le_of_not_lt hge)] at hcap
    exact List.cons_ne_nil _ _ hcap

/-- The pairwise no-double-booking relation: two entries on the same day never
have overlapping half-open intervals. -/
def NoOverlapRel (a b : TimetableEntry) : Prop :=
  a.day = b.day → timesOverlap a.startTime a.endTime b.startTime b.endTime = false

/-- Well-formedness of one committed entry with respect to the configuration. -/
def EntryWellFormed (config : TimetableConfig) (e : TimetableEntry) : Prop :=
  ∃ slot ∈ config.timeSlots, ∃ subj ∈ config.subjects,
    e.day = slot.day ∧ e.startTime = slot.startTime ∧ e.endTime = slot.endTime ∧
    subj.duration ≤ slot.duration ∧ e.subjectId = subj.id ∧
    e.teacherId = subj.teacher ∧ e.roomId = subj.room

/-- One attempt preserves pairwise non-overlap of the committed entries. -/
theorem stepAttempt_no_overlap (config : TimetableConfig) (oracle : Nat → String)
    (subject : Subject) (st : GenState)
    (h : st.assignments.Pairwise NoOverlapRel) :
    (stepAttempt config oracle subject st).assignments.Pairwise NoOverlapRel := by
  rcases hs : assignSubject config st.assignments subject (oracle st.total) with ⟨oe, cs⟩
  cases oe with
  | none => simpa [stepAttempt, hs] using h
  | some e =>
    obtain ⟨slot, hmem, hnil, he, hcs⟩ :=
      assignSubject_some_spec config st.assignments subject (oracle st.total) e cs hs
    obtain ⟨htime, _⟩ := detectConflicts_nil_facts config st.assignments subject slot hnil
    have hstep : (stepAttempt config oracle subject st).assignments =
        st.assignments ++ [e] := by
      simp [stepAttempt, hs]
    rw [hstep, List.pairwise_append]
    refine ⟨h, List.pairwise_singleton _ _, ?_⟩
    intro a ha b hb
    rw [List.mem_singleton] at hb
    subst hb
    intro hday
    have hnotmem : ∀ x ∈ st.assignments,
        ¬(x.day == slot.day &&
          timesOverlap x.startTime x.endTime slot.startTime slot.endTime) = true := by
      intro x hx
      exact List.filter_eq_nil_iff.mp htime x hx
    have := hnotmem a ha
    rw [he] at hday ⊢
    simp only [mkEntry] at hday ⊢
    simp only [Bool.and_eq_true, beq_iff_eq, not_and] at this
    rcases Bool.eq_false_or_eq_true
        (timesOverlap a.startTime a.endTime slot.startTime slot.endTime) with htr | hf
    · exact absurd htr (this hday)
    · exact hf

/-- One attempt keeps every teacher at or below three committed entries,
provided every configured subject names a teacher. -/
theorem stepAttempt_teacher_cap (config : TimetableConfig) (oracle : Nat → String)
    (subject : Subject) (hsub : subject ∈ config.subjects)
    (hT : ∀ s ∈ config.subjects, s.teacher ≠ "") (st : GenState)
    (h : ∀ t, (st.assignments.filter (fun e => e.teacherId == t)).length ≤ 3) :
    ∀ t, ((stepAttempt config oracle subject st).assignments.filter
      (fun e => e.teacherId == t)).length ≤ 3 := by
  intro t
  rcases hs : assignSubject config st.assignments subject (oracle st.total) with ⟨oe, cs⟩
  cases oe with
  | none => simpa [stepAttempt, hs] using h t
  | some e =>
    obtain ⟨slot, hmem, hnil, he, hcs⟩ :=
      assignSubject_some_spec config st.assignments subject (oracle st.total) e cs hs
    obtain ⟨_, hcap⟩ := detectConflicts_nil_facts config st.assignments subject slot hnil
    have hstep : (stepAttempt config oracle subject st).assignments =
        st.assignments ++ [e] := by
      simp [stepAttempt, hs]
    rw [hstep, List.filter_append, List.length_append]
    by_cases hte : e.teacherId == t
    · have hteq : subject.teacher = t := by
        have : e.teacherId = subject.teacher := by rw [he]; rfl
        rw [this] at hte
        exact beq_iff_eq.mp hte
      have hlt := hcap (hT subject hsub)
      rw [hteq] at hlt
      have hfe : List.filter (fun x => x.teacherId == t) [e] = [e] := by simp [hte]
      rw [hfe]
      simp only [List.length_singleton]
      omega
    · have hfe : List.filter (fun x => x.teacherId == t) [e] = [] := by simp [hte]
      rw [hfe]
      have := h t
      simp only [List.length_nil]
      omega

/-- One attempt preserves well-formedness of all committed entries. -/
theorem stepAttempt_wellformed (config : TimetableConfig) (oracle : Nat → String)
    (subject : Subject) (hsub : subject ∈ config.subjects) (st : GenState)
    (h : ∀ e ∈ st.assignments, EntryWellFormed config e) :
    ∀ e ∈ (stepAttempt config oracle subject st).assignments,
      EntryWellFormed config e := by
  intro e he
  rcases hs : assignSubject config st.assignments subject (oracle st.total) with ⟨oe, cs⟩
  cases oe with
  | none =>
    have : (stepAttempt config oracle subject st).assignments = st.assignments := by
      simp [stepAttempt, hs]
    exact h e (this ▸ he)
  | some e' =>
    obtain ⟨slot, hmem, hnil, he', hcs⟩ :=
      assignSubject_some_spec config st.assignments subject (oracle st.total) e' cs hs
    have hstep : (stepAttempt config oracle subject st).assignments =
        st.assignments ++ [e'] := by
      simp [stepAttempt, hs]
    rw [hstep] at he
    rcases List.mem_append.mp he with hold | hnew
    · exact h e hold
    · rw [List.mem_singleton] at hnew
      subst hnew
      obtain ⟨hslot, hdur⟩ := getAvailableSlots_mem config st.assignments subject slot hmem
      exact ⟨slot, hslot, subject, hsub, by rw [he']; exact rfl, by rw [he']; exact rfl,
        by rw [he']; exact rfl, hdur, by rw [he']; exact rfl, by rw [he']; exact rfl,
        by rw [he']; exact rfl⟩

/-- Every subject handed to the main loop is one of the configured subjects. -/
theorem prioritizeSubjects_mem (config : TimetableConfig)
    (assignments : List TimetableEntry) (s : Subject)
    (h : s ∈ prioritizeSubjects config assignments) : s ∈ config.subjects := by
  unfold prioritizeSubjects at h
  exact List.mem_mergeSort.mp h

/-! ## Claim theorems: scheduling invariants -/

/-- C1: on the spec's data model (every subject names a teacher), the
generated entries never double-book a day — no two of them on the same day
have overlapping half-open intervals — and no teacher identity is carried by
more than 3 entries. -/
theorem generateTimetable_no_double_booking_and_teacher_cap
    (config : TimetableConfig) (oracle : Nat → String)
    (hT : ∀ s ∈ config.subjects, s.teacher ≠ "") :
    (generateTimetable config oracle).entries.Pairwise NoOverlapRel ∧
      ∀ t, (((generateTimetable config oracle).entries.filter
        (fun e => e.teacherId == t)).length ≤ 3) := by
  rw [generateTimetable_entries_def]
  constructor
  · have := runSubjects_inv config oracle
      (fun st => st.assignments.Pairwise NoOverlapRel)
      (fun subject st h => stepAttempt_no_overlap config oracle subject st h)
      (prioritizeSubjects config []) initState (by simp [initState])
    exact this
  · have := runSubjects_inv_mem config oracle
      (fun st => ∀ t, (st.assignments.filter (fun e => e.teacherId == t)).length ≤ 3)
      (prioritizeSubjects config [])
      (fun subject hmem st h =>
        stepAttempt_teacher_cap config oracle subject
          (prioritizeSubjects_mem config [] subject hmem) hT st h)
      initState (by simp [initState])
    exact this

/-- C10: every generated entry is well-formed — its day and times are copied
from a configured slot long enough for the referenced subject, its subject is
configured, and its teacher and room are that subject's. -/
theorem generateTimetable_entries_wellformed (config : TimetableConfig)
    (oracle : Nat → String) (e : TimetableEntry)
    (he : e ∈ (generateTimetable config oracle).entries) :
    EntryWellFormed config e := by
  rw [generateTimetable_entries_def] at he
  have := runSubjects_inv_mem config oracle
    (fun st => ∀ x ∈ st.assignments, EntryWellFormed config x)
    (prioritizeSubjects config [])
    (fun subject hmem st h =>
      stepAttempt_wellformed config oracle subject
        (prioritizeSubjects_mem config [] subject hmem) st h)
    initState (by simp [initState])
  exact this e he

/-! ## Concrete sample data for witnesses -/

def sampleSlot : TimeSlot :=
  { id := "mon-1", day := "Monday", startTime := "08:30", endTime := "09:20", duration := 50 }

def sampleSubject : Subject :=
  { id := "math", name := "Math", duration := 50, frequency := 1,
    preferredTimeSlots := [], teacher := "A", room := "" }

def sampleConfig : TimetableConfig :=
  { subjects := [sampleSubject], timeSlots := [sampleSlot] }

def sampleOracle : Nat → String := fun _ => "x"

/-- Witness for C1 at a concrete configuration and the teacher `"A"`. -/
theorem generateTimetable_no_double_booking_and_teacher_cap_witness :
    (generateTimetable sampleConfig sampleOracle).entries.Pairwise NoOverlapRel ∧
      (((generateTimetable sampleConfig sampleOracle).entries.filter
        (fun e => e.teacherId == "A")).length ≤ 3) :=
  ⟨(generateTimetable_no_double_booking_and_teacher_cap sampleConfig sampleOracle
      (by decide)).1,
   (generateTimetable_no_double_booking_and_teacher_cap sampleConfig sampleOracle
      (by decide)).2 "A"⟩

/-- The sample run sorts a one-element subject list trivially. -/
theorem samplePrioritized : prioritizeSubjects sampleConfig [] = [sampleSubject] := by
  unfold prioritizeSubjects
  exact List.mergeSort_singleton sampleSubject

/-- The sample run commits exactly one entry. -/
theorem sampleEntries :
    (generateTimetable sampleConfig sampleOracle).entries =
      [mkEntry sampleSubject sampleSlot "x"] := by
  rw [generateTimetable_entries_def]
  show (runSubjects sampleConfig sampleOracle
    (prioritizeSubjects sampleConfig []) initState).assignments = _
  rw [samplePrioritized]
  decide

/-- Witness for C10 at a concrete configuration and its one generated entry. -/
theorem generateTimetable_entries_wellformed_witness :
    mkEntry sampleSubject sampleSlot "x" ∈
        (generateTimetable sampleConfig sampleOracle).entries ∧
      EntryWellFormed sampleConfig (mkEntry sampleSubject sampleSlot "x") :=
  ⟨by rw [sampleEntries]; exact List.mem_singleton_self _,
   generateTimetable_entries_wellformed sampleConfig sampleOracle
    (mkEntry sampleSubject sampleSlot "x")
    (by rw [sampleEntries]; exact List.mem_singleton_self _)⟩

/-! ## C6: candidate-slot computation -/

/-- The claim's description of the candidate list, stated directly from the
spec's words: configured slots restricted to the preferred identities (when
that list is given and non-empty) and to sufficient duration. Used only to
compare against the source-derived `getAvailableSlots`. -/
def specCandidateSlots (config : TimetableConfig) (subject : Subject) : List TimeSlot :=
  config.timeSlots.filter (fun sl =>
    (subject.preferredTimeSlots.isEmpty || subject.preferredTimeSlots.contains sl.id) &&
      subject.duration ≤ sl.duration)

/-- The claim's semantic test for "the teacher already has a committed entry
on this day". -/
def teacherUsesDay (assignments : List TimetableEntry) (teacher day : String) : Bool :=
  assignments.any (fun e => e.teacherId == teacher && e.day == day)

theorem jsSetDedup_aux (l : List String) :
    ∀ (acc : List String) (x : String),
      x ∈ l.foldl (fun acc d => if acc.contains d then acc else acc ++ [d]) acc ↔
        x ∈ acc ∨ x ∈ l := by
  induction l with
  | nil => intro acc x; simp
  | cons d t ih =>
    intro acc x
    rw [List.foldl_cons, ih]
    by_cases hc : acc.contains d
    · rw [if_pos hc]
      have hd : d ∈ acc := by simpa using hc
      constructor
      · rintro (hx | hx)
        · exact Or.inl hx
        · exact Or.inr (List.mem_cons_of_mem d hx)
      · rintro (hx | hx)
        · exact Or.inl hx
        · rcases List.mem_cons.mp hx with rfl | hx
          · exact Or.inl hd
          · exact Or.inr hx
    · rw [if_neg hc]
      constructor
      · rintro (hx | hx)
        · rcases List.mem_append.mp hx with hx | hx
          · exact Or.inl hx
          · exact Or.inr (List.mem_cons.mpr (Or.inl (List.mem_singleton.mp hx)))
        · exact Or.inr (List.mem_cons_of_mem d hx)
      · rintro (hx | hx)
        · exact Or.inl (List.mem_append.mpr (Or.inl hx))
        · rcases List.mem_cons.mp hx with rfl | hx
          · exact Or.inl (List.mem_append.mpr (Or.inr (List.mem_singleton.mpr rfl)))
          · exact Or.inr hx

/-- `Array.from(new Set(xs))` has the same members as `xs`. -/
theorem jsSetDedup_mem (l : List String) (x : String) :
    x ∈ jsSetDedup l ↔ x ∈ l := by
  unfold jsSetDedup
  rw [jsSetDedup_aux]
  simp

/-- The code's "teacher already uses that day" test (deduplicated day list plus
`contains`) agrees with the claim's direct quantification over entries. -/
theorem getTeacherAssignedDays_contains (assignments : List TimetableEntry)
    (teacher day : String) :
    (getTeacherAssignedDays assignments teacher).contains day =
      teacherUsesDay assignments teacher day := by
  rw [Bool.eq_iff_iff]
  unfold getTeacherAssignedDays teacherUsesDay
  constructor
  · intro hc
    have hmem : day ∈ jsSetDedup ((assignments.filter
        (fun a => a.teacherId == teacher)).map (fun a => a.day)) := by
      simpa using hc
    rw [jsSetDedup_mem] at hmem
    obtain ⟨e, he, hday⟩ := List.mem_map.mp hmem
    obtain ⟨hmem', hteach⟩ := List.mem_filter.mp he
    refine List.any_eq_true.mpr ⟨e, hmem', ?_⟩
    rw [Bool.and_eq_true]
    exact ⟨hteach, by rw [hday]; exact beq_self_eq_true day⟩
  · intro ha
    obtain ⟨e, hmem', hp⟩ := List.any_eq_true.mp ha
    rw [Bool.and_eq_true] at hp
    obtain ⟨hteach, hday⟩ := hp
    have hmem : day ∈ jsSetDedup ((assignments.filter
        (fun a => a.teacherId == teacher)).map (fun a => a.day)) := by
      rw [jsSetDedup_mem]
      exact List.mem_map.mpr ⟨e, List.mem_filter.mpr ⟨hmem', hteach⟩, beq_iff_eq.mp hday⟩
    simpa using hmem

/-- C6: for a subject with a teacher, the engine's candidate list is exactly
the configured slots filtered to the preferred identities (when given) and to
sufficient duration, stably partitioned with slots on days the teacher has no
committed entry first and slots on days the teacher already uses second. -/
theorem getAvailableSlots_spec (config : TimetableConfig)
    (assignments : List TimetableEntry) (subject : Subject)
    (h : subject.teacher ≠ "") :
    getAvailableSlots config assignments subject =
      (specCandidateSlots config subject).filter
          (fun sl => !(teacherUsesDay assignments subject.teacher sl.day)) ++
        (specCandidateSlots config subject).filter
          (fun sl => teacherUsesDay assignments subject.teacher sl.day) := by
  have hfs : filteredSlots config subject = specCandidateSlots config subject := by
    simp only [filteredSlots, specCandidateSlots]
    by_cases hp : subject.preferredTimeSlots ≠ []
    · rw [if_pos hp, List.filter_filter]
      apply List.filter_congr
      intro a _
      have hne : subject.preferredTimeSlots.isEmpty = false := by
        cases hpe : subject.preferredTimeSlots with
        | nil => exact absurd hpe hp
        | cons x xs => rfl
      rw [hne]
      simp [Bool.and_comm, ge_iff_le]
    · rw [if_neg hp]
      apply List.filter_congr
      intro a _
      have hnil : subject.preferredTimeSlots = [] := not_not.mp hp
      rw [hnil]
      simp [ge_iff_le]
  simp only [getAvailableSlots]
  rw [if_pos h, hfs]
  have hcongr1 : (specCandidateSlots config subject).filter
      (fun sl => !((getTeacherAssignedDays assignments subject.teacher).contains sl.day)) =
      (specCandidateSlots config subject).filter
        (fun sl => !(teacherUsesDay assignments subject.teacher sl.day)) := by
    apply List.filter_congr
    intro a _
    rw [getTeacherAssignedDays_contains]
  have hcongr2 : (specCandidateSlots config subject).filter
      (fun sl => (getTeacherAssignedDays assignments subject.teacher).contains sl.day) =
      (specCandidateSlots config subject).filter
        (fun sl => teacherUsesDay assignments subject.teacher sl.day) := by
    apply List.filter_congr
    intro a _
    rw [getTeacherAssignedDays_contains]
  rw [hcongr1, hcongr2]

/-- Witness for C6 at a concrete subject with a teacher and one committed
entry. -/
theorem getAvailableSlots_spec_witness :
    getAvailableSlots sampleConfig [mkEntry sampleSubject sampleSlot "x"] sampleSubject =
      (specCandidateSlots sampleConfig sampleSubject).filter
          (fun sl => !(teacherUsesDay [mkEntry sampleSubject sampleSlot "x"]
            sampleSubject.teacher sl.day)) ++
        (specCandidateSlots sampleConfig sampleSubject).filter
          (fun sl => teacherUsesDay [mkEntry sampleSubject sampleSlot "x"]
            sampleSubject.teacher sl.day) :=
  getAvailableSlots_spec sampleConfig [mkEntry sampleSubject sampleSlot "x"]
    sampleSubject (by decide)

/-! ## C7: the identity oracle does not influence placements -/

/-- Forget the freshly-generated identity of an entry. -/
def eraseId (e : TimetableEntry) : TimetableEntry :=
  { e with id := "" }

/-- The engine never reads an entry's id: filters and projections over
assignment lists are determined by the id-erased entries. -/
theorem filterMap_eraseId_congr {γ : Type} (p : TimetableEntry → Bool)
    (m : TimetableEntry → γ) (hp : ∀ a, p (eraseId a) = p a)
    (hm : ∀ a, m (eraseId a) = m a) {l1 l2 : List TimetableEntry}
    (h : l1.map eraseId = l2.map eraseId) :
    (l1.filter p).map m = (l2.filter p).map m := by
  have key : ∀ l : List TimetableEntry,
      ((l.map eraseId).filter p).map m = (l.filter p).map m := by
    intro l
    rw [List.filter_map, List.map_map]
    have h1 : List.filter (p ∘ eraseId) l = List.filter p l :=
      List.filter_congr (fun a _ => hp a)
    have h2 : List.map (m ∘ eraseId) (List.filter p l) = List.map m (List.filter p l) :=
      List.map_congr_left (fun a _ => hm a)
    rw [h1]
    exact h2
  rw [← key l1, ← key l2, h]

theorem filter_length_congr (p : TimetableEntry → Bool)
    (hp : ∀ a, p (eraseId a) = p a) {l1 l2 : List TimetableEntry}
    (h : l1.map eraseId = l2.map eraseId) :
    (l1.filter p).length = (l2.filter p).length := by
  have := filterMap_eraseId_congr p eraseId hp (fun a => rfl) h
  have h2 := congrArg List.length this
  simpa using h2

theorem filter_nil_congr (p : TimetableEntry → Bool)
    (hp : ∀ a, p (eraseId a) = p a) {l1 l2 : List TimetableEntry}
    (h : l1.map eraseId = l2.map eraseId) :
    (l1.filter p = []) ↔ (l2.filter p = []) := by
  rw [← List.length_eq_zero, ← List.length_eq_zero, filter_length_congr p hp h]

theorem getTeacherAssignedDays_congr (teacher : String) {l1 l2 : List TimetableEntry}
    (h : l1.map eraseId = l2.map eraseId) :
    getTeacherAssignedDays l1 teacher = getTeacherAssignedDays l2 teacher := by
  unfold getTeacherAssignedDays
  exact congrArg jsSetDedup
    (filterMap_eraseId_congr (fun a => a.teacherId == teacher) (fun a => a.day)
      (fun a => rfl) (fun a => rfl) h)

theorem getTeacherCurrentLoad_congr (teacher : String) {l1 l2 : List TimetableEntry}
    (h : l1.map eraseId = l2.map eraseId) :
    getTeacherCurrentLoad l1 teacher = getTeacherCurrentLoad l2 teacher :=
  filter_length_congr (fun a => a.teacherId == teacher) (fun a => rfl) h

theorem getAvailableSlots_congr (config : TimetableConfig) (subject : Subject)
    {l1 l2 : List TimetableEntry} (h : l1.map eraseId = l2.map eraseId) :
    getAvailableSlots config l1 subject = getAvailableSlots config l2 subject := by
  simp only [getAvailableSlots]
  rw [getTeacherAssignedDays_congr subject.teacher h]

theorem detectTimeConfs_congr (config : TimetableConfig) (slot : TimeSlot)
    {l1 l2 : List TimetableEntry} (h : l1.map eraseId = l2.map eraseId) :
    detectTimeConfs config l1 slot = detectTimeConfs config l2 slot := by
  unfold detectTimeConfs timeConflictingAssignments
  have hnil := filter_nil_congr
    (fun a => a.day == slot.day &&
      timesOverlap a.startTime a.endTime slot.startTime slot.endTime)
    (fun a => rfl) h
  have hmap := filterMap_eraseId_congr
    (fun a => a.day == slot.day &&
      timesOverlap a.startTime a.endTime slot.startTime slot.endTime)
    (fun a => subjectNameById config a.subjectId) (fun a => rfl) (fun a => rfl) h
  by_cases hc : l1.filter (fun a => a.day == slot.day &&
      timesOverlap a.startTime a.endTime slot.startTime slot.endTime) = []
  · rw [if_neg (not_not.mpr hc), if_neg (not_not.mpr (hnil.mp hc))]
  · rw [if_pos hc, if_pos (fun h2 => hc (hnil.mpr h2)), hmap]

theorem detectTeacherConfs_congr (config : TimetableConfig) (subject : Subject)
    (slot : TimeSlot) {l1 l2 : List TimetableEntry}
    (h : l1.map eraseId = l2.map eraseId) :
    detectTeacherConfs config l1 subject slot =
      detectTeacherConfs config l2 subject slot := by
  simp only [detectTeacherConfs]
  by_cases ht : subject.teacher ≠ ""
  · rw [if_pos ht, if_pos ht]
    have hnil := filter_nil_congr
      (fun a => a.teacherId == subject.teacher && a.day == slot.day &&
        timesOverlap a.startTime a.endTime slot.startTime slot.endTime)
      (fun a => rfl) h
    have hmap := filterMap_eraseId_congr
      (fun a => a.teacherId == subject.teacher && a.day == slot.day &&
        timesOverlap a.startTime a.endTime slot.startTime slot.endTime)
      (fun a => subjectNameById config a.subjectId) (fun a => rfl) (fun a => rfl) h
    have hlen := filter_length_congr (fun a => a.teacherId == subject.teacher)
      (fun a => rfl) h
    congr 1
    · by_cases hc : l1.filter (fun a => a.teacherId == subject.teacher &&
          a.day == slot.day &&
          timesOverlap a.startTime a.endTime slot.startTime slot.endTime) = []
      · rw [if_neg (not_not.mpr hc), if_neg (not_not.mpr (hnil.mp hc))]
      · rw [if_pos hc, if_pos (fun h2 => hc (hnil.mpr h2)), hmap]
    · rw [hlen]
  · rw [if_neg ht, if_neg ht]

theorem detectRoomConfs_congr (config : TimetableConfig) (subject : Subject)
    (slot : TimeSlot) {l1 l2 : List TimetableEntry}
    (h : l1.map eraseId = l2.map eraseId) :
    detectRoomConfs config l1 subject slot =
      detectRoomConfs config l2 subject slot := by
  simp only [detectRoomConfs]
  by_cases hr : subject.room ≠ ""
  · rw [if_pos hr, if_pos hr]
    have hnil := filter_nil_congr
      (fun a => a.roomId == subject.room && a.day == slot.day &&
        timesOverlap a.startTime a.endTime slot.startTime slot.endTime)
      (fun a => rfl) h
    have hmap := filterMap_eraseId_congr
      (fun a => a.roomId == subject.room && a.day == slot.day &&
        timesOverlap a.startTime a.endTime slot.startTime slot.endTime)
      (fun a => subjectNameById config a.subjectId) (fun a => rfl) (fun a => rfl) h
    by_cases hc : l1.filter (fun a => a.roomId == subject.room &&
        a.day == slot.day &&
        timesOverlap a.startTime a.endTime slot.startTime slot.endTime) = []
    · rw [if_neg (not_not.mpr hc), if_neg (not_not.mpr (hnil.mp hc))]
    · rw [if_pos hc, if_pos (fun h2 => hc (hnil.mpr h2)), hmap]
  · rw [if_neg hr, if_neg hr]

theorem detectConflicts_congr (config : TimetableConfig) (subject : Subject)
    (slot : TimeSlot) {l1 l2 : List TimetableEntry}
    (h : l1.map eraseId = l2.map eraseId) :
    detectConflicts config l1 subject slot = detectConflicts config l2 subject slot := by
  unfold detectConflicts
  rw [detectTimeConfs_congr config slot h, detectTeacherConfs_congr config subject slot h,
    detectRoomConfs_congr config subject slot h]

theorem scanSlots_congr (config : TimetableConfig) (subject : Subject)
    {l1 l2 : List TimetableEntry} (h : l1.map eraseId = l2.map eraseId) :
    ∀ (slots : List TimeSlot) (cbs : List (String × List String)),
      scanSlots config l1 subject slots cbs = scanSlots config l2 subject slots cbs := by
  intro slots
  induction slots with
  | nil => intro cbs; rfl
  | cons s rest ih =>
    intro cbs
    simp only [scanSlots]
    rw [detectConflicts_congr config subject s h]
    by_cases hc : detectConflicts config l2 subject s = []
    · rw [if_pos hc, if_pos hc]
    · rw [if_neg hc, if_neg hc, ih]

theorem generateConflictReport_congr (config : TimetableConfig) (subject : Subject)
    (cbs : List (String × List String)) (availableSlots : List TimeSlot)
    {l1 l2 : List TimetableEntry} (h : l1.map eraseId = l2.map eraseId) :
    generateConflictReport config l1 subject cbs availableSlots =
      generateConflictReport config l2 subject cbs availableSlots := by
  simp only [generateConflictReport, getTeacherAssignedDays_congr subject.teacher h,
    getTeacherCurrentLoad_congr subject.teacher h]

theorem assignSubject_congr (config : TimetableConfig) (subject : Subject)
    (s1 s2 : String) {l1 l2 : List TimetableEntry}
    (h : l1.map eraseId = l2.map eraseId) :
    (assignSubject config l1 subject s1).1.map eraseId =
        (assignSubject config l2 subject s2).1.map eraseId ∧
      (assignSubject config l1 subject s1).2 = (assignSubject config l2 subject s2).2 := by
  simp only [assignSubject]
  rw [getAvailableSlots_congr config subject h, scanSlots_congr config subject h]
  rcases scanSlots config l2 subject (getAvailableSlots config l2 subject) []
    with ⟨os, cbs⟩
  cases os with
  | none =>
    refine ⟨rfl, ?_⟩
    simp only
    rw [generateConflictReport_congr config subject cbs
      (getAvailableSlots config l2 subject) h]
  | some slot => exact ⟨rfl, rfl⟩

/-- The simulation relation between two runs that differ only in the identity
oracle. -/
def GenRel (st1 st2 : GenState) : Prop :=
  st1.assignments.map eraseId = st2.assignments.map eraseId ∧
    st1.conflicts = st2.conflicts ∧ st1.total = st2.total ∧ st1.succ = st2.succ

theorem stepAttempt_rel (config : TimetableConfig) (g1 g2 : Nat → String)
    (subject : Subject) {st1 st2 : GenState} (h : GenRel st1 st2) :
    GenRel (stepAttempt config g1 subject st1) (stepAttempt config g2 subject st2) := by
  obtain ⟨ha, hc, ht, hs⟩ := h
  obtain ⟨h1, h2⟩ :=
    assignSubject_congr config subject (g1 st1.total) (g2 st2.total) ha
  simp only [stepAttempt]
  rcases e1 : assignSubject config st1.assignments subject (g1 st1.total) with ⟨oe1, cs1⟩
  rcases e2 : assignSubject config st2.assignments subject (g2 st2.total) with ⟨oe2, cs2⟩
  rw [e1, e2] at h1 h2
  dsimp only at h1 h2
  cases oe1 with
  | none =>
    cases oe2 with
    | none =>
      dsimp only
      exact ⟨ha, by rw [hc, h2], by rw [ht], hs⟩
    | some e2' => exact absurd h1 (by simp)
  | some e1' =>
    cases oe2 with
    | none => exact absurd h1 (by simp)
    | some e2' =>
      have h1' : eraseId e1' = eraseId e2' := by simpa using h1
      show GenRel
        { assignments := st1.assignments ++ [e1'], conflicts := st1.conflicts ++ cs1,
          total := st1.total + 1, succ := st1.succ + 1 }
        { assignments := st2.assignments ++ [e2'], conflicts := st2.conflicts ++ cs2,
          total := st2.total + 1, succ := st2.succ + 1 }
      refine ⟨?_, by rw [hc, h2], by rw [ht], by rw [hs]⟩
      rw [List.map_append, List.map_append, ha]
      simp [h1']

theorem iterate_rel {α : Type} (f g : α → α) (R : α → α → Prop)
    (h : ∀ a b, R a b → R (f a) (g b)) :
    ∀ (n : Nat) (a b : α), R a b → R (f^[n] a) (g^[n] b) := by
  intro n
  induction n with
  | zero => intro a b hr; exact hr
  | succ n ih =>
    intro a b hr
    rw [Function.iterate_succ_apply, Function.iterate_succ_apply]
    exact ih _ _ (h a b hr)

theorem runSubjects_rel (config : TimetableConfig) (g1 g2 : Nat → String) :
    ∀ (subjects : List Subject) {st1 st2 : GenState}, GenRel st1 st2 →
      GenRel (runSubjects config g1 subjects st1) (runSubjects config g2 subjects st2) := by
  intro subjects
  induction subjects with
  | nil => intro st1 st2 h; exact h
  | cons s t ih =>
    intro st1 st2 h
    refine ih ?_
    rw [processSubject_eq_iterate, processSubject_eq_iterate]
    exact iterate_rel _ _ GenRel (fun a b hr => stepAttempt_rel config g1 g2 s hr) _ _ _ h

/-- C7: two runs on the identical configuration produce the same
(day, startTime, subjectId) placements in the same order, the same conflicts,
the same success flag, and the same completion rate — only the fresh entry
identities can differ. -/
theorem generateTimetable_placements_deterministic (config : TimetableConfig)
    (g1 g2 : Nat → String) :
    (generateTimetable config g1).entries.map
        (fun e => (e.day, e.startTime, e.subjectId)) =
      (generateTimetable config g2).entries.map
        (fun e => (e.day, e.startTime, e.subjectId)) ∧
    (generateTimetable config g1).conflicts = (generateTimetable config g2).conflicts ∧
    (generateTimetable config g1).success = (generateTimetable config g2).success ∧
    (generateTimetable config g1).completionRate =
      (generateTimetable config g2).completionRate := by
  have hrel : GenRel (runSubjects config g1 (prioritizeSubjects config []) initState)
      (runSubjects config g2 (prioritizeSubjects config []) initState) :=
    runSubjects_rel config g1 g2 (prioritizeSubjects config []) ⟨rfl, rfl, rfl, rfl⟩
  obtain ⟨ha, hc, ht, hs⟩ := hrel
  have hstate1 : finalState config g1 =
      runSubjects config g1 (prioritizeSubjects config []) initState := rfl
  have hstate2 : finalState config g2 =
      runSubjects config g2 (prioritizeSubjects config []) initState := rfl
  have hrate : finalRate config g1 = finalRate config g2 := by
    unfold finalRate
    rw [hstate1, hstate2, ht, hs]
  have hproj : ∀ l : List TimetableEntry,
      l.map (fun e => (e.day, e.startTime, e.subjectId)) =
        (l.map eraseId).map (fun e => (e.day, e.startTime, e.subjectId)) := by
    intro l
    rw [List.map_map]
    exact (List.map_congr_left (fun a _ => rfl)).symm
  refine ⟨?_, ?_, ?_, ?_⟩
  · rw [generateTimetable_entries_def, generateTimetable_entries_def, hstate1, hstate2,
      hproj, ha, ← hproj]
  · rw [generateTimetable_conflicts_def, generateTimetable_conflicts_def, hstate1,
      hstate2, hc]
  · rw [generateTimetable_success_def, generateTimetable_success_def, hstate1, hstate2,
      hc, hrate]
  · rw [generateTimetable_rate_def, generateTimetable_rate_def, hrate]

/-! ## C9 and C8: interactive update validation -/

theorem timeConflictMsg_tag (nd ns : String) :
    ∃ r, timeConflictMsg nd ns = "TIME_CONFLICT" ++ r := by
  refine ⟨": Time slot " ++ (nd ++ (" " ++ (ns ++ " is already occupied"))), ?_⟩
  unfold timeConflictMsg
  simp only [String.append_assoc]
  rw [show ("TIME_CONFLICT: Time slot " : String) =
    "TIME_CONFLICT" ++ ": Time slot " from by decide, String.append_assoc]

/-- The TIME_CONFLICT message is produced by `checkUpdateConflicts` whenever
the day or start time is truthily changed and the target is occupied by a
different entry. -/
theorem checkUpdateConflicts_time_conflict (timetable : GeneratedTimetable)
    (subjects : List Subject) (entryId : String) (updates : EntryUpdates)
    (currentEntry : TimetableEntry)
    (hfind : timetable.entries.find? (fun e => e.id == entryId) = some currentEntry)
    (hmove : ((jsTruthy updates.day && updates.day.getD "" != currentEntry.day) ||
      (jsTruthy updates.startTime &&
        updates.startTime.getD "" != currentEntry.startTime)) = true)
    (hfilter : timetable.entries.filter (fun e =>
      e.id != entryId && e.day == jsOr updates.day currentEntry.day &&
        e.startTime == jsOr updates.startTime currentEntry.startTime) ≠ []) :
    timeConflictMsg (jsOr updates.day currentEntry.day)
        (jsOr updates.startTime currentEntry.startTime) ∈
      checkUpdateConflicts timetable subjects entryId updates := by
  unfold checkUpdateConflicts
  rw [hfind]
  dsimp only
  rw [if_pos hmove, if_pos hfilter]
  exact List.mem_append_left _ (List.mem_append_left _
    (List.mem_append_left _ (List.mem_singleton_self _)))

/-- C9: moving an existing entry onto a day/start already occupied by a
different entry returns a TIME_CONFLICT-tagged message and leaves the
timetable (in particular its entry list) completely unchanged. -/
theorem handleUpdateEntry_time_conflict_blocks (timetable : GeneratedTimetable)
    (subjects : List Subject) (entryId : String) (updates : EntryUpdates)
    (currentEntry : TimetableEntry)
    (hfind : timetable.entries.find? (fun e => e.id == entryId) = some currentEntry)
    (hmove : ((jsTruthy updates.day && updates.day.getD "" != currentEntry.day) ||
      (jsTruthy updates.startTime &&
        updates.startTime.getD "" != currentEntry.startTime)) = true)
    (hocc : ∃ e ∈ timetable.entries, e.id ≠ entryId ∧
      e.day = jsOr updates.day currentEntry.day ∧
      e.startTime = jsOr updates.startTime currentEntry.startTime) :
    (∃ m ∈ (handleUpdateEntry timetable subjects entryId updates).1,
        ∃ r, m = "TIME_CONFLICT" ++ r) ∧
      (handleUpdateEntry timetable subjects entryId updates).2 = timetable := by
  have hfilter : timetable.entries.filter (fun e =>
      e.id != entryId && e.day == jsOr updates.day currentEntry.day &&
        e.startTime == jsOr updates.startTime currentEntry.startTime) ≠ [] := by
    obtain ⟨e, hmem, hne, hd, hs⟩ := hocc
    exact List.ne_nil_of_mem
      (List.mem_filter.mpr ⟨hmem, by simp [hne, hd, hs]⟩)
  have hmsg := checkUpdateConflicts_time_conflict timetable subjects entryId updates
    currentEntry hfind hmove hfilter
  have hne : checkUpdateConflicts timetable subjects entryId updates ≠ [] :=
    List.ne_nil_of_mem hmsg
  have hrun : handleUpdateEntry timetable subjects entryId updates =
      (checkUpdateConflicts timetable subjects entryId updates, timetable) := by
    unfold handleUpdateEntry
    rw [if_pos hne]
  rw [hrun]
  exact ⟨⟨_, hmsg, timeConflictMsg_tag _ _⟩, rfl⟩

/-- Concrete timetable for the C9 witness and C8 counterexample. -/
def cex1 : TimetableEntry :=
  { id := "e1", subjectId := "s1", timeSlotId := "m1", teacherId := "T1", roomId := "R1",
    day := "Monday", startTime := "08:30", endTime := "09:20" }

def cex2 : TimetableEntry :=
  { id := "e2", subjectId := "s2", timeSlotId := "t1", teacherId := "T2", roomId := "R2",
    day := "Tuesday", startTime := "09:00", endTime := "09:50" }

def cexTT : GeneratedTimetable :=
  { entries := [cex1, cex2], conflicts := [], success := true, completionRate := 100 }

/-- Witness for C9: move `e1` onto `e2`'s Tuesday 09:00 slot. -/
theorem handleUpdateEntry_time_conflict_blocks_witness :
    (∃ m ∈ (handleUpdateEntry cexTT [] "e1"
        { day := some "Tuesday", startTime := some "09:00" }).1,
        ∃ r, m = "TIME_CONFLICT" ++ r) ∧
      (handleUpdateEntry cexTT [] "e1"
        { day := some "Tuesday", startTime := some "09:00" }).2 = cexTT :=
  handleUpdateEntry_time_conflict_blocks cexTT [] "e1"
    { day := some "Tuesday", startTime := some "09:00" } cex1
    (by decide) (by decide)
    ⟨cex2, by decide, by decide, by decide, by decide⟩

/-- C8 counterexample state: a second entry already occupies the first
entry's Monday 08:30 day/start. -/
def c8other : TimetableEntry :=
  { id := "e2", subjectId := "s2", timeSlotId := "m1", teacherId := "T2", roomId := "R2",
    day := "Monday", startTime := "08:30", endTime := "09:20" }

def c8TT : GeneratedTimetable :=
  { entries := [cex1, c8other], conflicts := [], success := true, completionRate := 100 }

/-- C8 counterexample: a room-only update request against `e1`. The
time-slot-occupancy condition holds at the effective day+start (`e2` occupies
Monday 08:30 and has a different id), yet the validator returns no violation
at all — the occupancy check is skipped because neither day nor start time is
being changed. This refutes the claim that a tagged violation string is
returned whenever the respective condition holds. -/
theorem checkUpdateConflicts_c8_counterexample :
    (∃ e ∈ c8TT.entries, e.id ≠ "e1" ∧
        e.day = jsOr ({ roomId := some "R9" } : EntryUpdates).day cex1.day ∧
        e.startTime =
          jsOr ({ roomId := some "R9" } : EntryUpdates).startTime cex1.startTime) ∧
      checkUpdateConflicts c8TT [] "e1" { roomId := some "R9" } = [] := by
  decide

/-- C8 (amended): `checkUpdateConflicts` computes effective day, start time,
teacher, and room with fallback to the current entry's values, but performs
each check only when the corresponding field is being (truthily) changed:
occupancy when day or start time changes, teacher double-booking and the
weekly cap when the teacher changes, room double-booking when the room
changes. Whenever a performed check's condition holds, the correspondingly
tagged violation string is in the returned list. -/
theorem checkUpdateConflicts_conditional_checks (timetable : GeneratedTimetable)
    (subjects : List Subject) (entryId : String) (updates : EntryUpdates)
    (currentEntry : TimetableEntry)
    (hfind : timetable.entries.find? (fun e => e.id == entryId) = some currentEntry) :
    (((jsTruthy updates.day && updates.day.getD "" != currentEntry.day) ||
        (jsTruthy updates.startTime &&
          updates.startTime.getD "" != currentEntry.startTime)) = true →
      timetable.entries.filter (fun e =>
        e.id != entryId && e.day == jsOr updates.day currentEntry.day &&
          e.startTime == jsOr updates.startTime currentEntry.startTime) ≠ [] →
      timeConflictMsg (jsOr updates.day currentEntry.day)
          (jsOr updates.startTime currentEntry.startTime) ∈
        checkUpdateConflicts timetable subjects entryId updates) ∧
    ((jsTruthy updates.teacherId &&
        updates.teacherId.getD "" != currentEntry.teacherId) = true →
      timetable.entries.filter (fun e =>
        e.id != entryId && e.teacherId == updates.teacherId.getD "" &&
          e.day == jsOr updates.day currentEntry.day &&
          e.startTime == jsOr updates.startTime currentEntry.startTime) ≠ [] →
      teacherConflictMsg (updates.teacherId.getD "")
          (jsOr updates.day currentEntry.day)
          (jsOr updates.startTime currentEntry.startTime) ∈
        checkUpdateConflicts timetable subjects entryId updates) ∧
    ((jsTruthy updates.teacherId &&
        updates.teacherId.getD "" != currentEntry.teacherId) = true →
      (timetable.entries.filter (fun e =>
        e.id != entryId && e.teacherId == updates.teacherId.getD "")).length ≥ 3 →
      workloadViolationMsg (updates.teacherId.getD "")
          ((timetable.entries.filter (fun e =>
            e.id != entryId && e.teacherId == updates.teacherId.getD "")).length) ∈
        checkUpdateConflicts timetable subjects entryId updates) ∧
    ((jsTruthy updates.roomId && updates.roomId.getD "" != currentEntry.roomId) = true →
      timetable.entries.filter (fun e =>
        e.id != entryId && e.roomId == updates.roomId.getD "" &&
          e.day == jsOr updates.day currentEntry.day &&
          e.startTime == jsOr updates.startTime currentEntry.startTime) ≠ [] →
      roomConflictMsg (updates.roomId.getD "")
          (jsOr updates.day currentEntry.day)
          (jsOr updates.startTime currentEntry.startTime) ∈
        checkUpdateConflicts timetable subjects entryId updates) := by
  refine ⟨?_, ?_, ?_, ?_⟩
  · intro hg hcond
    exact checkUpdateConflicts_time_conflict timetable subjects entryId updates
      currentEntry hfind hg hcond
  · intro hg hcond
    unfold checkUpdateConflicts
    rw [hfind]
    dsimp only
    rw [if_pos hg, if_pos hcond]
    refine List.mem_append_left _ (List.mem_append_left _ (List.mem_append_right _ ?_))
    exact List.mem_append_left _ (List.mem_singleton_self _)
  · intro hg hlen
    unfold checkUpdateConflicts
    rw [hfind]
    dsimp only
    rw [if_pos hg, if_pos hlen]
    refine List.mem_append_left _ (List.mem_append_left _ (List.mem_append_right _ ?_))
    exact List.mem_append_right _ (List.mem_singleton_self _)
  · intro hg hcond
    unfold checkUpdateConflicts
    rw [hfind]
    dsimp only
    rw [if_pos hg, if_pos hcond]
    refine List.mem_append_left _ (List.mem_append_right _ ?_)
    exact List.mem_singleton_self _

def c8w2 : TimetableEntry :=
  { id := "e2", subjectId := "s2", timeSlotId := "t1", teacherId := "T9", roomId := "R9",
    day := "Tuesday", startTime := "09:00", endTime := "09:50" }

def c8w3 : TimetableEntry :=
  { id := "e3", subjectId := "s3", timeSlotId := "w1", teacherId := "T9", roomId := "R3",
    day := "Wednesday", startTime := "10:00", endTime := "10:50" }

def c8w4 : TimetableEntry :=
  { id := "e4", subjectId := "s4", timeSlotId := "th1", teacherId := "T9", roomId := "R4",
    day := "Thursday", startTime := "11:00", endTime := "11:50" }

def c8wTT : GeneratedTimetable :=
  { entries := [cex1, c8w2, c8w3, c8w4], conflicts := [], success := true,
    completionRate := 100 }

def c8wUpd : EntryUpdates :=
  { day := some "Tuesday", startTime := some "09:00", teacherId := some "T9",
    roomId := some "R9" }

/-- Witness for the amended C8: one update request that triggers all four
performed checks. -/
theorem checkUpdateConflicts_conditional_checks_witness :
    timeConflictMsg (jsOr c8wUpd.day cex1.day) (jsOr c8wUpd.startTime cex1.startTime) ∈
        checkUpdateConflicts c8wTT [] "e1" c8wUpd ∧
      teacherConflictMsg (c8wUpd.teacherId.getD "") (jsOr c8wUpd.day cex1.day)
          (jsOr c8wUpd.startTime cex1.startTime) ∈
        checkUpdateConflicts c8wTT [] "e1" c8wUpd ∧
      workloadViolationMsg (c8wUpd.teacherId.getD "")
          ((c8wTT.entries.filter (fun e =>
            e.id != "e1" && e.teacherId == c8wUpd.teacherId.getD "")).length) ∈
        checkUpdateConflicts c8wTT [] "e1" c8wUpd ∧
      roomConflictMsg (c8wUpd.roomId.getD "") (jsOr c8wUpd.day cex1.day)
          (jsOr c8wUpd.startTime cex1.startTime) ∈
        checkUpdateConflicts c8wTT [] "e1" c8wUpd := by
  have h := checkUpdateConflicts_conditional_checks c8wTT [] "e1" c8wUpd cex1 (by decide)
  exact ⟨h.1 (by decide) (by decide), h.2.1 (by decide) (by decide),
    h.2.2.1 (by decide) (by decide), h.2.2.2 (by decide) (by decide)⟩

/-! ## C5: validator workload errors and warnings -/

theorem digChar_ne_quote (d : Nat) : digChar d ≠ '"' := by
  unfold digChar
  repeat' split
  all_goals decide

/-- Every character of a rendered natural number is a digit, hence not a
quote. -/
theorem natStr_chars (n : Nat) : ∀ c ∈ (natStr n).data, c ≠ '"' := by
  induction n using Nat.strong_induction_on with
  | _ n ih =>
    rw [natStr]
    split
    next h =>
      intro c hc
      rw [show ((digChar n).toString.data) = [digChar n] from rfl,
        List.mem_singleton] at hc
      subst hc
      exact digChar_ne_quote n
    next h =>
      intro c hc
      rw [String.data_append] at hc
      rcases List.mem_append.mp hc with hm | hm
      · exact ih (n / 10) (Nat.div_lt_self (by omega) (by decide)) c hm
      · rw [show ((digChar (n % 10)).toString.data) = [digChar (n % 10)] from rfl,
          List.mem_singleton] at hm
        subst hm
        exact digChar_ne_quote (n % 10)

/-- Two lists with different fixed prefixes are different, witnessed by one
differing position inside both prefixes. -/
theorem append_ne_of_ne_at (P1 P2 x y : List Char) (i : Nat)
    (h1 : i < P1.length) (h2 : i < P2.length) (hne : P1[i]? ≠ P2[i]?) :
    P1 ++ x ≠ P2 ++ y := by
  intro h
  apply hne
  rw [← @List.getElem?_append_left Char P1 x i h1, h,
    @List.getElem?_append_left Char P2 y i h2]

theorem missing_ne_workload (name t : String) (W : Nat) :
    missingTeacherMsg name ≠ workloadErrMsg t W := by
  unfold missingTeacherMsg workloadErrMsg
  intro h
  have hd := congrArg String.data h
  simp only [String.data_append, List.append_assoc] at hd
  exact append_ne_of_ne_at _ _ _ _ 3 (by decide) (by decide) (by decide) hd

theorem duration_ne_workload (name : String) (d : Nat) (t : String) (W : Nat) :
    durationMismatchMsg name d ≠ workloadErrMsg t W := by
  unfold durationMismatchMsg workloadErrMsg
  intro h
  have hd := congrArg String.data h
  simp only [String.data_append, List.append_assoc] at hd
  exact append_ne_of_ne_at _ _ _ _ 0 (by decide) (by decide) (by decide) hd

theorem risk_ne_capacity (name : String) (a b : Nat) (t : String) :
    schedulingRiskMsg name a b ≠ capacityWarnMsg t := by
  unfold schedulingRiskMsg capacityWarnMsg
  intro h
  have hd := congrArg String.data h
  simp only [String.data_append, List.append_assoc] at hd
  exact append_ne_of_ne_at _ _ _ _ 0 (by decide) (by decide) (by decide) hd

theorem room_ne_capacity (room : String) (a b c : Nat) (t : String) :
    roomRiskMsg room a b c ≠ capacityWarnMsg t := by
  unfold roomRiskMsg capacityWarnMsg
  intro h
  have hd := congrArg String.data h
  simp only [String.data_append, List.append_assoc] at hd
  exact append_ne_of_ne_at _ _ _ _ 0 (by decide) (by decide) (by decide) hd

/-- The capacity warning names the teacher injectively. -/
theorem capacityWarnMsg_inj (t1 t2 : String)
    (h : capacityWarnMsg t1 = capacityWarnMsg t2) : t1 = t2 := by
  unfold capacityWarnMsg at h
  have hd := congrArg String.data h
  simp only [String.data_append, List.append_assoc] at hd
  have h1 := List.append_cancel_left hd
  have h2 : t1.data = t2.data := List.append_cancel_right h1
  exact String.ext h2

/-- The workload error names the teacher injectively: the teacher name is
exactly what stands between the fixed prefix and the last quote of the
message, because the rendered total contains no quote. -/
theorem workloadErrMsg_inj (t1 t2 : String) (n1 n2 : Nat)
    (h : workloadErrMsg t1 n1 = workloadErrMsg t2 n2) : t1 = t2 := by
  unfold workloadErrMsg at h
  have hd := congrArg String.data h
  simp only [String.data_append, List.append_assoc] at hd
  have h1 := List.append_cancel_left hd
  have h2 : (t1.data ++ ("\" assigned ".data ++ (natStr n1).data)) ++
        " slots/week (Maximum: 3). Please redistribute subjects or reduce frequency.".data =
      (t2.data ++ ("\" assigned ".data ++ (natStr n2).data)) ++
        " slots/week (Maximum: 3). Please redistribute subjects or reduce frequency.".data := by
    simpa [List.append_assoc] using h1
  have h3 := List.append_cancel_right h2
  have h4 := congrArg List.reverse h3
  simp only [List.reverse_append, List.append_assoc] at h4
  rw [show (['\"', ' ', 'a', 's', 's', 'i', 'g', 'n', 'e', 'd', ' '] : List Char).reverse =
    [' ', 'd', 'e', 'n', 'g', 'i', 's', 's', 'a', ' ', '\"'] from by decide] at h4
  have hq : ∀ (m : Nat) (c : Char), c ∈ ((natStr m).data).reverse → (c != '"') = true := by
    intro m c hc
    exact bne_iff_ne.mpr (natStr_chars m c (List.mem_reverse.mp hc))
  have h5 := congrArg (List.dropWhile (fun c => c != '"')) h4
  rw [List.dropWhile_append_of_pos (hq n1), List.dropWhile_append_of_pos (hq n2)] at h5
  rw [show ([' ', 'd', 'e', 'n', 'g', 'i', 's', 's', 'a', ' ', '\"'] : List Char) ++
      t1.data.reverse =
      [' ', 'd', 'e', 'n', 'g', 'i', 's', 's', 'a', ' '] ++ ('"' :: t1.data.reverse) from
    rfl] at h5
  rw [show ([' ', 'd', 'e', 'n', 'g', 'i', 's', 's', 'a', ' ', '\"'] : List Char) ++
      t2.data.reverse =
      [' ', 'd', 'e', 'n', 'g', 'i', 's', 's', 'a', ' '] ++ ('"' :: t2.data.reverse) from
    rfl] at h5
  rw [List.dropWhile_append_of_pos (by decide),
    List.dropWhile_append_of_pos (by decide)] at h5
  rw [List.dropWhile_cons_of_neg (by decide), List.dropWhile_cons_of_neg (by decide)] at h5
  have h6 : t1.data.reverse = t2.data.reverse := by
    injection h5
  exact String.ext (by
    have := congrArg List.reverse h6
    simpa using this)

/-- Filtering by key commutes with the value-update map of `workloadStep`,
because the update preserves keys. -/
theorem pairFilter_map_upd (k t : String) (f : Nat) (acc : List (String × Nat)) :
    (acc.map (fun p => if p.1 == k then (p.1, p.2 + f) else p)).filter
        (fun p => p.1 == t) =
      (acc.filter (fun p => p.1 == t)).map
        (fun p => if p.1 == k then (p.1, p.2 + f) else p) := by
  rw [List.filter_map]
  exact congrArg _ (List.filter_congr (fun p _ => by
    show ((if (p.1 == k) = true then (p.1, p.2 + f) else p).1 == t) = (p.1 == t)
    by_cases h : (p.1 == k) = true
    · rw [if_pos h]
    · rw [if_neg h]))

/-- Once the accumulator holds an entry for teacher `t`, folding more subjects
adds exactly the `t`-subjects' frequencies to that entry. -/
theorem workloads_aux2 (t : String) (ht : t ≠ "") :
    ∀ (l : List Subject) (acc : List (String × Nat)) (v : Nat),
      acc.filter (fun p => p.1 == t) = [(t, v)] →
      ((l.foldl workloadStep acc).filter (fun p => p.1 == t)) =
        [(t, v + ((l.filter (fun s => s.teacher == t)).map (fun s => s.frequency)).sum)] := by
  intro l
  induction l with
  | nil =>
    intro acc v hacc
    simpa using hacc
  | cons s l' ih =>
    intro acc v hacc
    rw [List.foldl_cons]
    by_cases hst : s.teacher = t
    · have htmem : (t, v) ∈ acc := by
        have : (t, v) ∈ acc.filter (fun p => p.1 == t) := by
          rw [hacc]; exact List.mem_singleton_self _
        exact (List.mem_filter.mp this).1
      have hany : acc.any (fun p => p.1 == s.teacher) = true := by
        refine List.any_eq_true.mpr ⟨(t, v), htmem, ?_⟩
        rw [hst]
        exact beq_self_eq_true t
      have he : s.teacher ≠ "" := by rw [hst]; exact ht
      have hstep : workloadStep acc s = acc.map
          (fun p => if p.1 == s.teacher then (p.1, p.2 + s.frequency) else p) := by
        unfold workloadStep
        rw [if_pos he, if_pos hany]
      rw [hstep]
      have hacc' : ((acc.map (fun p =>
          if p.1 == s.teacher then (p.1, p.2 + s.frequency) else p)).filter
            (fun p => p.1 == t)) = [(t, v + s.frequency)] := by
        rw [pairFilter_map_upd, hacc]
        simp [hst]
      rw [ih _ _ hacc']
      rw [List.filter_cons, if_pos (by simpa using hst), List.map_cons, List.sum_cons]
      have harith : v + s.frequency +
          ((l'.filter (fun x => x.teacher == t)).map (fun x => x.frequency)).sum =
          v + (s.frequency +
            ((l'.filter (fun x => x.teacher == t)).map (fun x => x.frequency)).sum) := by
        omega
      rw [harith]
    · have hfilter_acc : (workloadStep acc s).filter (fun p => p.1 == t) =
          acc.filter (fun p => p.1 == t) := by
        unfold workloadStep
        by_cases he : s.teacher ≠ ""
        · rw [if_pos he]
          by_cases hany : acc.any (fun p => p.1 == s.teacher) = true
          · rw [if_pos hany, pairFilter_map_upd]
            have : ∀ p ∈ acc.filter (fun p => p.1 == t),
                (if p.1 == s.teacher then (p.1, p.2 + s.frequency) else p) = p := by
              intro p hp
              have hkey : p.1 = t := by
                simpa using (List.mem_filter.mp hp).2
              rw [if_neg (by rw [hkey]; simpa using fun hh => hst hh.symm)]
            rw [List.map_congr_left this, List.map_id']
          · rw [if_neg (by simpa using hany), List.filter_append]
            have : ([(s.teacher, s.frequency)] : List (String × Nat)).filter
                (fun p => p.1 == t) = [] := by
              simp [hst]
            rw [this, List.append_nil]
        · rw [if_neg he]
      rw [ih _ _ (by rw [hfilter_acc]; exact hacc)]
      rw [List.filter_cons, if_neg (by simpa using hst)]

/-- A subject of a different teacher leaves teacher `t`'s map entry
untouched. -/
theorem workloadStep_filter_other (t : String) (s : Subject) (hst : s.teacher ≠ t)
    (acc : List (String × Nat)) :
    (workloadStep acc s).filter (fun p => p.1 == t) =
      acc.filter (fun p => p.1 == t) := by
  unfold workloadStep
  by_cases he : s.teacher ≠ ""
  · rw [if_pos he]
    by_cases hany : acc.any (fun p => p.1 == s.teacher) = true
    · rw [if_pos hany, pairFilter_map_upd]
      have hid : ∀ p ∈ acc.filter (fun p => p.1 == t),
          (if p.1 == s.teacher then (p.1, p.2 + s.frequency) else p) = p := by
        intro p hp
        have hkey : p.1 = t := by
          simpa using (List.mem_filter.mp hp).2
        rw [if_neg (by rw [hkey]; simpa using fun hh => hst hh.symm)]
      rw [List.map_congr_left hid, List.map_id']
    · rw [if_neg (by simpa using hany), List.filter_append]
      have hsingle : ([(s.teacher, s.frequency)] : List (String × Nat)).filter
          (fun p => p.1 == t) = [] := by
        simp [hst]
      rw [hsingle, List.append_nil]
  · rw [if_neg he]

/-- Until a teacher's first subject is folded in, the map has no entry for the
teacher; the first such subject creates it and later ones accumulate into
it. -/
theorem workloads_aux1 (t : String) (ht : t ≠ "") :
    ∀ (l : List Subject) (acc : List (String × Nat)),
      acc.filter (fun p => p.1 == t) = [] →
      ((l.foldl workloadStep acc).filter (fun p => p.1 == t)) =
        (if (l.filter (fun s => s.teacher == t)) = [] then []
         else [(t, ((l.filter (fun s => s.teacher == t)).map
            (fun s => s.frequency)).sum)]) := by
  intro l
  induction l with
  | nil =>
    intro acc hacc
    simpa using hacc
  | cons s l' ih =>
    intro acc hacc
    rw [List.foldl_cons]
    by_cases hst : s.teacher = t
    · have he : s.teacher ≠ "" := by rw [hst]; exact ht
      have hany : acc.any (fun p => p.1 == s.teacher) = false := by
        rw [List.any_eq_false]
        intro p hp hP
        have hmem : p ∈ acc.filter (fun p => p.1 == t) :=
          List.mem_filter.mpr ⟨hp, by rw [hst] at hP; exact hP⟩
        rw [hacc] at hmem
        exact absurd hmem (List.not_mem_nil p)
      have hstep : workloadStep acc s = acc ++ [(s.teacher, s.frequency)] := by
        unfold workloadStep
        rw [if_pos he, if_neg (by simp [hany])]
      rw [hstep]
      have hacc' : (acc ++ [(s.teacher, s.frequency)]).filter
          (fun p => p.1 == t) = [(t, s.frequency)] := by
        rw [List.filter_append, hacc]
        simp [hst]
      rw [workloads_aux2 t ht l' _ _ hacc']
      have hcons : (s :: l').filter (fun x => x.teacher == t) =
          s :: (l'.filter (fun x => x.teacher == t)) := by
        rw [List.filter_cons, if_pos (by simpa using hst)]
      rw [hcons, if_neg (by simp), List.map_cons, List.sum_cons]
    · rw [ih _ (by rw [workloadStep_filter_other t s hst acc]; exact hacc)]
      have hscons : (s :: l').filter (fun x => x.teacher == t) =
          l'.filter (fun x => x.teacher == t) := by
        rw [List.filter_cons, if_neg (by simpa using hst)]
      rw [hscons]

/-- Every key of the workload map is a non-empty teacher name. -/
theorem teacherWorkloads_keys_ne (l : List Subject) :
    ∀ p ∈ teacherWorkloads l, p.1 ≠ "" := by
  unfold teacherWorkloads
  suffices h : ∀ (l : List Subject) (acc : List (String × Nat)),
      (∀ p ∈ acc, p.1 ≠ "") → ∀ p ∈ l.foldl workloadStep acc, p.1 ≠ "" by
    exact h l [] (by intro p hp; exact absurd hp (List.not_mem_nil p))
  intro l
  induction l with
  | nil => intro acc hacc; exact hacc
  | cons s l' ih =>
    intro acc hacc
    rw [List.foldl_cons]
    refine ih _ ?_
    intro p hp
    unfold workloadStep at hp
    by_cases he : s.teacher ≠ ""
    · rw [if_pos he] at hp
      by_cases hany : acc.any (fun q => q.1 == s.teacher) = true
      · rw [if_pos hany] at hp
        obtain ⟨q, hq, hqe⟩ := List.mem_map.mp hp
        have : p.1 = q.1 := by
          rw [← hqe]
          by_cases h : (q.1 == s.teacher) = true
          · rw [if_pos h]
          · rw [if_neg h]
        rw [this]
        exact hacc q hq
      · rw [if_neg (by simpa using hany)] at hp
        rcases List.mem_append.mp hp with hm | hm
        · exact hacc p hm
        · rw [List.mem_singleton] at hm
          rw [hm]
          exact he
    · rw [if_neg he] at hp
      exact hacc p hp

/-- Characterization of the workload map at teacher `t`: exactly one entry
when `t` teaches some subject, holding the summed frequency; no entry
otherwise. -/
theorem teacherWorkloads_filter (t : String) (ht : t ≠ "") (subjects : List Subject) :
    (teacherWorkloads subjects).filter (fun p => p.1 == t) =
      (if (subjects.filter (fun s => s.teacher == t)) = [] then []
       else [(t, ((subjects.filter (fun s => s.teacher == t)).map
          (fun s => s.frequency)).sum)]) :=
  workloads_aux1 t ht subjects [] rfl

theorem filter_swap {α : Type} (p q : α → Bool) (l : List α) :
    (l.filter p).filter q = (l.filter q).filter p := by
  rw [List.filter_filter, List.filter_filter]
  exact List.filter_congr (fun a _ => Bool.and_comm _ _)

/-- Filtering by `q` can be restricted to any filter `p` implied by `q`. -/
theorem filter_restrict {α : Type} (p q : α → Bool)
    (h : ∀ a, q a = true → p a = true) (l : List α) :
    l.filter q = (l.filter p).filter q := by
  rw [List.filter_filter]
  refine List.filter_congr ?_
  intro a _
  cases hq : q a with
  | true => simp [h a hq]
  | false => rfl

theorem count_map_eq_length_filter {α β : Type} [BEq β] [LawfulBEq β]
    (f : α → β) (b : β) :
    ∀ l : List α, (l.map f).count b = (l.filter (fun a => f a == b)).length := by
  intro l
  induction l with
  | nil => rfl
  | cons a l' ih =>
    rw [List.map_cons, List.count_cons, List.filter_cons]
    by_cases h : (f a == b) = true
    · rw [if_pos h, if_pos h, List.length_cons, ih]
    · rw [if_neg h, if_neg h, ih]
      omega

theorem count_map_eq_zero {α β : Type} [BEq β] [LawfulBEq β] (f : α → β) (b : β)
    (l : List α) (h : ∀ a ∈ l, f a ≠ b) : (l.map f).count b = 0 := by
  refine List.count_eq_zero.mpr ?_
  intro hm
  obtain ⟨a, ha, hab⟩ := List.mem_map.mp hm
  exact h a ha hab

/-- The error list of a non-degenerate validation run, in push order:
missing-teacher errors, workload errors, duration-mismatch errors. -/
theorem validateConfiguration_errors (config : TimetableConfig)
    (h1 : config.subjects ≠ []) (h2 : config.timeSlots ≠ []) :
    (validateConfiguration config).errors =
      ((config.subjects.filter (fun s => s.teacher == "" || s.teacher.trim == "")).map
        (fun s => missingTeacherMsg s.name)) ++
      (((teacherWorkloads config.subjects).filter (fun p => p.2 > 3)).map
        (fun p => workloadErrMsg p.1 p.2)) ++
      ((config.subjects.filter
        (fun s => config.timeSlots.filter (fun sl => sl.duration ≥ s.duration) = [])).map
        (fun s => durationMismatchMsg s.name s.duration)) := by
  unfold validateConfiguration
  rw [if_neg h1, if_neg h2]

/-- The warning list of a non-degenerate validation run, in push order:
capacity warnings, scheduling-risk warnings, room-conflict-risk warnings. -/
theorem validateConfiguration_warnings (config : TimetableConfig)
    (h1 : config.subjects ≠ []) (h2 : config.timeSlots ≠ []) :
    (validateConfiguration config).warnings =
      (((teacherWorkloads config.subjects).filter (fun p => p.2 = 3)).map
        (fun p => capacityWarnMsg p.1)) ++
      ((config.subjects.filter
        (fun s =>
          s.frequency >
            (jsSetDedup ((config.timeSlots.filter (fun sl => sl.duration ≥ s.duration)).map
              (fun sl => sl.day))).length)).map
        (fun s =>
          schedulingRiskMsg s.name s.frequency
            (jsSetDedup ((config.timeSlots.filter (fun sl => sl.duration ≥ s.duration)).map
              (fun sl => sl.day))).length)) ++
      (((roomAssignments config.subjects).filter (fun p => p.2.length > 1)).filterMap
        (fun p =>
          if ((config.subjects.filter (fun s => s.room == p.1)).map
              (fun s => s.frequency)).sum >
              (config.timeSlots.filter (fun sl => sl.day == "Monday")).length *
                (jsSetDedup (config.timeSlots.map (fun sl => sl.day))).length then
            some (roomRiskMsg p.1 p.2.length
              (((config.subjects.filter (fun s => s.room == p.1)).map
                (fun s => s.frequency)).sum)
              ((config.timeSlots.filter (fun sl => sl.day == "Monday")).length *
                (jsSetDedup (config.timeSlots.map (fun sl => sl.day))).length))
          else none)) := by
  unfold validateConfiguration
  rw [if_neg h1, if_neg h2]

/-- C5: on a configuration with at least one subject and one time slot whose
subjects all name a teacher, validation emits exactly one workload error
(naming the teacher and the summed total) for a teacher whose summed frequency
exceeds 3, exactly one capacity warning for a teacher exactly at 3, and
neither for a teacher strictly below 3. -/
theorem validateConfiguration_teacher_workload (config : TimetableConfig) (t : String)
    (h1 : config.subjects ≠ []) (h2 : config.timeSlots ≠ [])
    (hT : ∀ s ∈ config.subjects, s.teacher ≠ "") :
    (getTeacherTotalLoad config t > 3 →
      (validateConfiguration config).errors.count
        (workloadErrMsg t (getTeacherTotalLoad config t)) = 1) ∧
    (getTeacherTotalLoad config t = 3 →
      (validateConfiguration config).warnings.count (capacityWarnMsg t) = 1) ∧
    (getTeacherTotalLoad config t < 3 →
      (validateConfiguration config).errors.count
          (workloadErrMsg t (getTeacherTotalLoad config t)) = 0 ∧
        (validateConfiguration config).warnings.count (capacityWarnMsg t) = 0) := by
  have herr := validateConfiguration_errors config h1 h2
  have hwarn := validateConfiguration_warnings config h1 h2
  have hmiss0 : ∀ W : Nat,
      (((config.subjects.filter (fun s => s.teacher == "" || s.teacher.trim == "")).map
        (fun s => missingTeacherMsg s.name)).count (workloadErrMsg t W)) = 0 :=
    fun W => count_map_eq_zero _ _ _ (fun s _ => missing_ne_workload s.name t W)
  have hdur0 : ∀ W : Nat,
      (((config.subjects.filter
        (fun s => config.timeSlots.filter (fun sl => sl.duration ≥ s.duration) = [])).map
        (fun s => durationMismatchMsg s.name s.duration)).count (workloadErrMsg t W)) = 0 :=
    fun W => count_map_eq_zero _ _ _ (fun s _ => duration_ne_workload s.name s.duration t W)
  have hrisk0 :
      (((config.subjects.filter
        (fun s =>
          s.frequency >
            (jsSetDedup ((config.timeSlots.filter (fun sl => sl.duration ≥ s.duration)).map
              (fun sl => sl.day))).length)).map
        (fun s =>
          schedulingRiskMsg s.name s.frequency
            (jsSetDedup ((config.timeSlots.filter (fun sl => sl.duration ≥ s.duration)).map
              (fun sl => sl.day))).length)).count (capacityWarnMsg t)) = 0 :=
    count_map_eq_zero _ _ _ (fun s _ => risk_ne_capacity s.name s.frequency _ t)
  have hroom0 :
      ((((roomAssignments config.subjects).filter (fun p => p.2.length > 1)).filterMap
        (fun p =>
          if ((config.subjects.filter (fun s => s.room == p.1)).map
              (fun s => s.frequency)).sum >
              (config.timeSlots.filter (fun sl => sl.day == "Monday")).length *
                (jsSetDedup (config.timeSlots.map (fun sl => sl.day))).length then
            some (roomRiskMsg p.1 p.2.length
              (((config.subjects.filter (fun s => s.room == p.1)).map
                (fun s => s.frequency)).sum)
              ((config.timeSlots.filter (fun sl => sl.day == "Monday")).length *
                (jsSetDedup (config.timeSlots.map (fun sl => sl.day))).length))
          else none)).count (capacityWarnMsg t)) = 0 := by
    refine List.count_eq_zero.mpr ?_
    intro hm
    obtain ⟨p, hp, hsome⟩ := List.mem_filterMap.mp hm
    by_cases hc : ((config.subjects.filter (fun s => s.room == p.1)).map
        (fun s => s.frequency)).sum >
        (config.timeSlots.filter (fun sl => sl.day == "Monday")).length *
          (jsSetDedup (config.timeSlots.map (fun sl => sl.day))).length
    · rw [if_pos hc] at hsome
      injection hsome with hsome'
      exact room_ne_capacity _ _ _ _ t hsome'
    · rw [if_neg hc] at hsome
      exact Option.noConfusion hsome
  have hseg : ∀ W : Nat,
      ((((teacherWorkloads config.subjects).filter (fun p => p.2 > 3)).map
        (fun p => workloadErrMsg p.1 p.2)).count (workloadErrMsg t W)) =
      ((((teacherWorkloads config.subjects).filter (fun p => p.1 == t)).filter
        (fun p => p.2 > 3)).filter
        (fun p => workloadErrMsg p.1 p.2 == workloadErrMsg t W)).length := by
    intro W
    rw [count_map_eq_length_filter]
    rw [filter_restrict (fun p => p.1 == t)
      (fun p => workloadErrMsg p.1 p.2 == workloadErrMsg t W)
      (fun p hm => by
        have hk : p.1 = t := workloadErrMsg_inj _ _ _ _ (beq_iff_eq.mp hm)
        simpa using hk)
      ((teacherWorkloads config.subjects).filter (fun p => p.2 > 3))]
    rw [filter_swap (fun p => decide (p.2 > 3)) (fun p => p.1 == t)
      (teacherWorkloads config.subjects)]
  have hcapseg :
      ((((teacherWorkloads config.subjects).filter (fun p => p.2 = 3)).map
        (fun p => capacityWarnMsg p.1)).count (capacityWarnMsg t)) =
      ((((teacherWorkloads config.subjects).filter (fun p => p.1 == t)).filter
        (fun p => p.2 = 3)).filter
        (fun p => capacityWarnMsg p.1 == capacityWarnMsg t)).length := by
    rw [count_map_eq_length_filter]
    rw [filter_restrict (fun p => p.1 == t)
      (fun p => capacityWarnMsg p.1 == capacityWarnMsg t)
      (fun p hm => by
        have hk : p.1 = t := capacityWarnMsg_inj _ _ (beq_iff_eq.mp hm)
        simpa using hk)
      ((teacherWorkloads config.subjects).filter (fun p => p.2 = 3))]
    rw [filter_swap (fun p => decide (p.2 = 3)) (fun p => p.1 == t)
      (teacherWorkloads config.subjects)]
  by_cases ht : t = ""
  · have hWzero : getTeacherTotalLoad config t = 0 := by
      unfold getTeacherTotalLoad
      have : config.subjects.filter (fun s => s.teacher == t) = [] := by
        refine List.filter_eq_nil_iff.mpr ?_
        intro s hs
        simp [ht]
        exact hT s hs
      rw [this]
      rfl
    have hkeys0 : ((teacherWorkloads config.subjects).filter (fun p => p.1 == t)) = [] := by
      refine List.filter_eq_nil_iff.mpr ?_
      intro p hp
      simp [ht]
      exact teacherWorkloads_keys_ne config.subjects p hp
    refine ⟨fun hgt => absurd hgt (by omega), fun heq => absurd heq (by omega), fun _ => ?_⟩
    constructor
    · rw [herr]
      rw [List.count_append, List.count_append, hmiss0, hdur0, hseg, hkeys0]
      rfl
    · rw [hwarn]
      rw [List.count_append, List.count_append, hrisk0, hroom0, hcapseg, hkeys0]
      rfl
  · have hchar := teacherWorkloads_filter t ht config.subjects
    have hW : getTeacherTotalLoad config t =
        ((config.subjects.filter (fun s => s.teacher == t)).map
          (fun s => s.frequency)).sum := rfl
    refine ⟨?_, ?_, ?_⟩
    · intro hgt
      have hoccurs : config.subjects.filter (fun s => s.teacher == t) ≠ [] := by
        intro hnil
        rw [hW, hnil] at hgt
        simp at hgt
      rw [herr, List.count_append, List.count_append, hmiss0, hdur0, hseg]
      rw [hchar, if_neg hoccurs]
      have hkeep : ([(t, ((config.subjects.filter (fun s => s.teacher == t)).map
          (fun s => s.frequency)).sum)] : List (String × Nat)).filter
          (fun p => p.2 > 3) =
          [(t, ((config.subjects.filter (fun s => s.teacher == t)).map
            (fun s => s.frequency)).sum)] := by
        rw [List.filter_cons, if_pos (by rw [hW] at hgt; simpa using hgt)]
        rfl
      rw [hkeep]
      rw [List.filter_cons, if_pos (by rw [hW]; exact beq_self_eq_true _)]
      rfl
    · intro heq
      have hoccurs : config.subjects.filter (fun s => s.teacher == t) ≠ [] := by
        intro hnil
        rw [hW, hnil] at heq
        simp at heq
      rw [hwarn, List.count_append, List.count_append, hrisk0, hroom0, hcapseg]
      rw [hchar, if_neg hoccurs]
      have hkeep : ([(t, ((config.subjects.filter (fun s => s.teacher == t)).map
          (fun s => s.frequency)).sum)] : List (String × Nat)).filter
          (fun p => p.2 = 3) =
          [(t, ((config.subjects.filter (fun s => s.teacher == t)).map
            (fun s => s.frequency)).sum)] := by
        rw [List.filter_cons, if_pos (by rw [hW] at heq; simpa using heq)]
        rfl
      rw [hkeep]
      rw [List.filter_cons, if_pos (by exact beq_self_eq_true _)]
      rfl
    · intro hlt
      constructor
      · rw [herr, List.count_append, List.count_append, hmiss0, hdur0, hseg]
        rw [hchar]
        by_cases hocc : config.subjects.filter (fun s => s.teacher == t) = []
        · rw [if_pos hocc]
          rfl
        · rw [if_neg hocc]
          rw [List.filter_cons, if_neg (by rw [hW] at hlt; simpa using by omega)]
          rfl
      · rw [hwarn, List.count_append, List.count_append, hrisk0, hroom0, hcapseg]
        rw [hchar]
        by_cases hocc : config.subjects.filter (fun s => s.teacher == t) = []
        · rw [if_pos hocc]
          rfl
        · rw [if_neg hocc]
          rw [List.filter_cons, if_neg (by rw [hW] at hlt; simpa using by omega)]
          rfl

def c5cfg : TimetableConfig :=
  { subjects :=
      [{ id := "a", name := "Alg", duration := 50, frequency := 4,
         preferredTimeSlots := [], teacher := "T1", room := "" },
       { id := "b", name := "Bio", duration := 50, frequency := 3,
         preferredTimeSlots := [], teacher := "T2", room := "" },
       { id := "c", name := "Chem", duration := 50, frequency := 1,
         preferredTimeSlots := [], teacher := "T3", room := "" }]
    timeSlots := [sampleSlot] }

/-- Witness for C5: a teacher over the cap gets exactly one error, one exactly
at the cap gets exactly one warning, one below gets neither. -/
theorem validateConfiguration_teacher_workload_witness :
    (validateConfiguration c5cfg).errors.count
        (workloadErrMsg "T1" (getTeacherTotalLoad c5cfg "T1")) = 1 ∧
      (validateConfiguration c5cfg).warnings.count (capacityWarnMsg "T2") = 1 ∧
      (validateConfiguration c5cfg).errors.count
        (workloadErrMsg "T3" (getTeacherTotalLoad c5cfg "T3")) = 0 ∧
      (validateConfiguration c5cfg).warnings.count (capacityWarnMsg "T3") = 0 := by
  have hA := validateConfiguration_teacher_workload c5cfg "T1"
    (by decide) (by decide) (by decide)
  have hB := validateConfiguration_teacher_workload c5cfg "T2"
    (by decide) (by decide) (by decide)
  have hC := validateConfiguration_teacher_workload c5cfg "T3"
    (by decide) (by decide) (by decide)
  exact ⟨hA.1 (by decide), hB.2.1 (by decide),
    (hC.2.2 (by decide)).1, (hC.2.2 (by decide)).2⟩

end TTG
